import Mathlib

/-!
Verification of the exora-quant backtesting engine.

The embedding translates the Python sources of the repository into Lean:
* zone detector find_supply_demand_zones (backtester.py lines 374-432; the
  copy in main.py is character-level reformatting of the same code),
* liquidation helper calculate_liquidation_price (backtester.py lines 326-338),
* the event-driven backtest simulation run_backtest_simulation of
  backtester.py (lines 651-830), as an explicit state machine folded over the
  sub-interval candles,
* the entry block of main.py's run_backtest_simulation (lines 564-582), which
  differs from backtester.py by applying the liquidation clamp to the
  stop-loss,
* the futures branch and the metrics block of backtester_spot.py's
  run_backtest_simulation (lines 643-712 and 801-824).

Numeric values are modelled as exact rationals; timestamps as integers.  The
network fetching in the sources is outside the model: the simulation takes the
fully materialized candle arrays as inputs, exactly at the boundary the spec
draws.  The calendar-month lookup used by monthly DCA
(datetime.fromtimestamp(...).month, a timezone-dependent library call) is
modelled as an arbitrary function parameter monthOf.
-/

unseal Rat.mul Rat.add Rat.sub Rat.inv Rat.ofScientific

namespace Exora

/-- Trade direction, source strings 'long' / 'short'. -/
inductive Dir where
  | long
  | short
deriving DecidableEq, Repr, Inhabited

/-- An OHLC candle: fields t/o/h/l/c exactly as the dict rows built at
backtester.py line 683 and inside find_supply_demand_zones. -/
structure Candle where
  t : Int
  o : ℚ
  h : ℚ
  l : ℚ
  c : ℚ
deriving DecidableEq, Repr, Inhabited

/-- A supply or demand price band, source dict {'high': .., 'low': ..}. -/
structure Zone where
  high : ℚ
  low : ℚ
deriving DecidableEq, Repr, Inhabited

/-- Result of the zone detector, source dict {'supply': .., 'demand': ..}. -/
structure Zones where
  supply : Option Zone
  demand : Option Zone
deriving DecidableEq, Repr, Inhabited

/-- Python abs on exact rationals. -/
def rabs (q : ℚ) : ℚ := if q < 0 then -q else q

/-- Python max on exact rationals. -/
def rmax (a b : ℚ) : ℚ := if a < b then b else a

/-- Python min on exact rationals. -/
def rmin (a b : ℚ) : ℚ := if b < a then b else a

/-- Python range(a, b, -1): the list [a, a-1, ..., b+1]. -/
def downRange (a b : ℕ) : List ℕ :=
  (List.range (a - b)).map (fun k => a - k)

/-- Python list slice xs[a:b] for 0 ≤ a ≤ b. -/
def pySlice {α : Type} (xs : List α) (a b : ℕ) : List α :=
  (xs.drop a).take (b - a)

/-- The basing candles collected for a supply base at explosive index i:
backtester.py lines 399-407.  The j loop range(i-1, max(0,i-4), -1) with its
break is a takeWhile over the descending indices; a basing candle has body
below 0.8 of average and a rally candle immediately before it. -/
def supplyBasing (data : List Candle) (avg : ℚ) (i : ℕ) : List Candle :=
  ((downRange (i - 1) (i - 4)).takeWhile (fun j =>
    decide (rabs ((data.getD j default).o - (data.getD j default).c) < avg * 0.8 ∧
      (data.getD (j - 1) default).c > (data.getD (j - 1) default).o))).map
    (fun j => data.getD j default)

/-- The basing candles for a demand base: backtester.py lines 416-424, the
mirror condition (drop candle immediately before the basing candles). -/
def demandBasing (data : List Candle) (avg : ℚ) (i : ℕ) : List Candle :=
  ((downRange (i - 1) (i - 4)).takeWhile (fun j =>
    decide (rabs ((data.getD j default).o - (data.getD j default).c) < avg * 0.8 ∧
      (data.getD (j - 1) default).o > (data.getD (j - 1) default).c))).map
    (fun j => data.getD j default)

/-- base_high: fold of max over the basing candles' highs, initialised to -1
as in the source. -/
def baseHigh (cs : List Candle) : ℚ :=
  cs.foldl (fun a c => rmax a c.h) (-1)

/-- base_low: fold of min over the basing candles' lows.  The source
initialises with float positive infinity, so on the nonempty lists that can
produce a zone the result is the plain minimum; the empty case is never read
because a zone requires base_candles_count > 0. -/
def baseLow (cs : List Candle) : ℚ :=
  match cs with
  | [] => 0
  | x :: xs => xs.foldl (fun a c => rmin a c.l) x.l

/-- Supply-zone candidate at index i: backtester.py lines 396-410. -/
def supplyZoneAt (data : List Candle) (avg cur : ℚ) (i : ℕ) : Option Zone :=
  let ci := data.getD i default
  if ci.o > ci.c ∧ ci.o - ci.c > avg * 1.5 then
    let basing := supplyBasing data avg i
    if basing.length > 0 ∧ baseLow basing > cur then
      some ⟨baseHigh basing, baseLow basing⟩
    else none
  else none

/-- Demand-zone candidate at index i: backtester.py lines 413-427. -/
def demandZoneAt (data : List Candle) (avg cur : ℚ) (i : ℕ) : Option Zone :=
  let ci := data.getD i default
  if ci.c > ci.o ∧ ci.c - ci.o > avg * 1.5 then
    let basing := demandBasing data avg i
    if basing.length > 0 ∧ baseHigh basing < cur then
      some ⟨baseHigh basing, baseLow basing⟩
    else none
  else none

/-- The backward scan of backtester.py lines 394-430, keeping the first
(most recent) zone of each kind and stopping once both are found. -/
def zoneScan (data : List Candle) (avg cur : ℚ) :
    List ℕ → Option Zone → Option Zone → Zones
  | [], s, d => ⟨s, d⟩
  | i :: rest, s, d =>
    let s' := if s.isSome then s else supplyZoneAt data avg cur i
    let d' := if d.isSome then d else demandZoneAt data avg cur i
    if s'.isSome ∧ d'.isSome then ⟨s', d'⟩
    else zoneScan data avg cur rest s' d'

/-- find_supply_demand_zones, backtester.py lines 374-432, with the default
lookback of 500 used at every call site.  Python range(len-2, 2, -1) scans
i = len-2, ..., 3. -/
def find_supply_demand_zones (candles : List Candle) : Zones :=
  if candles.length < 20 then ⟨none, none⟩ else
  let data := candles.drop (candles.length - 500)
  let bodies := (data.map (fun c => rabs (c.o - c.c))).filter (fun b => b > 0)
  if bodies.isEmpty then ⟨none, none⟩ else
  let avg := bodies.sum / (bodies.length : ℚ)
  let cur := (data.getLastD default).c
  zoneScan data avg cur (downRange (data.length - 2) 2) none none

/-- MAINTENANCE_MARGIN_RATE = 0.005, backtester.py line 54. -/
def MAINTENANCE_MARGIN_RATE : ℚ := 0.005

/-- calculate_liquidation_price, backtester.py lines 326-338 (identical in
main.py lines 176-185): none when leverage ≤ 1, otherwise the entry price
moved against the position by 1/leverage - 0.005. -/
def calculate_liquidation_price (entry_price leverage : ℚ) (direction : Dir) :
    Option ℚ :=
  if leverage ≤ 1 then none
  else
    let price_change_percentage := 1 / leverage - MAINTENANCE_MARGIN_RATE
    match direction with
    | .long => some (entry_price * (1 - price_change_percentage))
    | .short => some (entry_price * (1 + price_change_percentage))

/-- Exit reasons of trade records, source strings 'SL', 'TP1', 'TP2', 'TP3',
'Reversal'. -/
inductive ExitReason where
  | SL
  | TP1
  | TP2
  | TP3
  | Reversal
deriving DecidableEq, Repr, Inhabited

/-- A trade record as appended to the trades list (backtester.py lines 714,
731, 752). -/
structure Trade where
  exit_time : Int
  direction : Dir
  pnl : ℚ
  return_pct : ℚ
  exit_reason : ExitReason
deriving DecidableEq, Repr, Inhabited

/-- The open-position dict created at backtester.py lines 787-793.  The _hit
flags are absent from the freshly created dict and read through .get, which
yields a falsy None; they are therefore Booleans that start false. -/
structure Position where
  entry_price : ℚ
  quantity : ℚ
  direction : Dir
  sl : ℚ
  tp1 : ℚ
  tp2 : ℚ
  tp3 : ℚ
  tp1_qty : ℚ
  tp2_qty : ℚ
  tp3_qty : ℚ
  tp1_hit : Bool := false
  tp2_hit : Bool := false
  tp3_hit : Bool := false
  initial_margin : ℚ
deriving DecidableEq, Repr, Inhabited

/-- A point of the equity curve, source dict {'time': .., 'equity': ..}. -/
structure EquityPoint where
  time : Int
  equity : ℚ
deriving DecidableEq, Repr, Inhabited

/-- dca_frequency setting: 'none', 'weekly' or 'monthly'. -/
inductive DcaFreq where
  | none
  | weekly
  | monthly
deriving DecidableEq, Repr, Inhabited

/-- mode setting: 'futures' or 'spot'. -/
inductive Mode where
  | futures
  | spot
deriving DecidableEq, Repr, Inhabited

/-- The scalar parameters of run_backtest_simulation (backtester.py line
651) that the simulation loop reads. -/
structure Params where
  leverage : ℚ
  starting_equity : ℚ
  risk_percentage : ℚ
  dca_frequency : DcaFreq
  dca_amount : ℚ
  mode : Mode
deriving DecidableEq, Repr, Inhabited

/-- The mutable state of the simulation loop of backtester.py lines 685-795:
equity, the optional open position, the trade log, the equity curve and the
DCA accumulators. -/
structure SimState where
  equity : ℚ
  open_position : Option Position
  trades : List Trade
  equity_curve : List EquityPoint
  total_dca_added : ℚ
  last_dca_time : Int
deriving DecidableEq, Repr, Inhabited

/-- WEEK_MS = 7*24*60*60*1000, backtester.py line 687. -/
def WEEK_MS : Int := 7 * 24 * 60 * 60 * 1000

/-- ts_to_main_candle_idx, backtester.py line 682: the dict comprehension
maps each open timestamp to its index, a later duplicate overwriting an
earlier one.  main_candle_open_timestamps (line 681) is the key set of the
same mapping, so membership there is exactly isSome here. -/
def tsToMainIdx (mains : List Candle) (ts : Int) : Option ℕ :=
  (List.range mains.length).foldl
    (fun acc i => if (mains.getD i default).t = ts then some i else acc) none

/-- The perform_dca test of backtester.py lines 699-701: weekly when a week
of milliseconds has elapsed, monthly when the calendar month changed.
monthOf stands for datetime.fromtimestamp(ts/1000).month. -/
def dcaPerform (monthOf : Int → ℕ) (freq : DcaFreq) (ts last_dca_time : Int) :
    Bool :=
  match freq with
  | .weekly => decide (ts - last_dca_time ≥ WEEK_MS)
  | .monthly => decide (monthOf ts ≠ monthOf last_dca_time)
  | .none => false

/-- The DCA block, backtester.py lines 698-705. -/
def dcaPhase (monthOf : Int → ℕ) (p : Params) (ts : Int) (s : SimState) :
    SimState :=
  if p.dca_frequency ≠ DcaFreq.none ∧ p.dca_amount > 0 then
    if dcaPerform monthOf p.dca_frequency ts s.last_dca_time then
      { s with equity := s.equity + p.dca_amount,
               total_dca_added := s.total_dca_added + p.dca_amount,
               last_dca_time := ts }
    else s
  else s

/-- The stop-loss trigger, backtester.py lines 710-711: the candle low (long)
or high (short) touching the stored stop. -/
def slHit (pos : Position) (c : Candle) : Bool :=
  decide ((pos.direction = .long ∧ c.l ≤ pos.sl) ∨
    (pos.direction = .short ∧ c.h ≥ pos.sl))

/-- P&L of a full close at the stop price, backtester.py line 712. -/
def slPnl (pos : Position) : ℚ :=
  match pos.direction with
  | .long => (pos.sl - pos.entry_price) * pos.quantity
  | .short => (pos.entry_price - pos.sl) * pos.quantity

/-- A trade record built from a position: exit time, upper-cased direction,
pnl, pnl / initial_margin * 100 and the reason. -/
def mkTrade (ts : Int) (pos : Position) (pnl : ℚ) (r : ExitReason) : Trade :=
  ⟨ts, pos.direction, pnl, pnl / pos.initial_margin * 100, r⟩

/-- Stop-loss check of the exit block, backtester.py lines 709-715. -/
def slPhase (ts : Int) (c : Candle) (s : SimState) : SimState :=
  match s.open_position with
  | none => s
  | some pos =>
    if slHit pos c then
      { s with equity := s.equity + slPnl pos,
               trades := s.trades ++ [mkTrade ts pos (slPnl pos) .SL],
               open_position := none }
    else s

/-- tp_prices[i], backtester.py line 719 (levels indexed 0,1,2). -/
def tpPrice (pos : Position) : ℕ → ℚ
  | 0 => pos.tp1
  | 1 => pos.tp2
  | _ => pos.tp3

/-- tp_qtys[i], backtester.py line 720. -/
def tpQty (pos : Position) : ℕ → ℚ
  | 0 => pos.tp1_qty
  | 1 => pos.tp2_qty
  | _ => pos.tp3_qty

/-- The _hit flag of level i. -/
def tpFlag (pos : Position) : ℕ → Bool
  | 0 => pos.tp1_hit
  | 1 => pos.tp2_hit
  | _ => pos.tp3_hit

/-- Setting the _hit flag of level i (backtester.py line 733). -/
def setTpFlag (pos : Position) : ℕ → Position
  | 0 => { pos with tp1_hit := true }
  | 1 => { pos with tp2_hit := true }
  | _ => { pos with tp3_hit := true }

/-- exit_reason f'TP{i+1}' for level i. -/
def tpReason : ℕ → ExitReason
  | 0 => .TP1
  | 1 => .TP2
  | _ => .TP3

/-- The take-profit trigger of level i, backtester.py lines 725-726. -/
def tpHitCond (pos : Position) (c : Candle) (i : ℕ) : Bool :=
  decide ((pos.direction = .long ∧ c.h ≥ tpPrice pos i) ∨
    (pos.direction = .short ∧ c.l ≤ tpPrice pos i))

/-- P&L of closing the level-i partial quantity at the level price,
backtester.py line 729. -/
def tpPnl (pos : Position) (i : ℕ) : ℚ :=
  match pos.direction with
  | .long => (tpPrice pos i - pos.entry_price) * tpQty pos i
  | .short => (pos.entry_price - tpPrice pos i) * tpQty pos i

/-- One iteration of the for-loop over the three TP levels, backtester.py
lines 723-733: an unfilled level whose price is touched realizes its partial
quantity, appends a trade, shrinks the position and sets the flag. -/
def tpLevelStep (ts : Int) (c : Candle) (i : ℕ) (s : SimState) : SimState :=
  match s.open_position with
  | none => s
  | some pos =>
    if tpFlag pos i = false ∧ tpHitCond pos c i = true then
      { s with equity := s.equity + tpPnl pos i,
               trades := s.trades ++ [mkTrade ts pos (tpPnl pos i) (tpReason i)],
               open_position :=
                 some (setTpFlag { pos with quantity := pos.quantity - tpQty pos i } i) }
    else s

/-- The final check of the take-profit block, backtester.py lines 735-736:
the position is destroyed whenever its tp3_hit flag is set. -/
def tpDestroy (s : SimState) : SimState :=
  match s.open_position with
  | some pos => if pos.tp3_hit then { s with open_position := none } else s
  | none => s

/-- The take-profit block, backtester.py lines 717-736: the three levels in
ascending order followed by full destruction whenever tp3_hit is set. -/
def tpPhase (ts : Int) (c : Candle) (s : SimState) : SimState :=
  match s.open_position with
  | none => s
  | some _ =>
    tpDestroy (tpLevelStep ts c 2 (tpLevelStep ts c 1 (tpLevelStep ts c 0 s)))

/-- The whole exit block of one sub-candle, backtester.py lines 708-736:
stop-loss first, then (only if still open) the take-profit levels. -/
def exitPhase (ts : Int) (c : Candle) (s : SimState) : SimState :=
  tpPhase ts c (slPhase ts c s)

/-- P&L of a full close at an arbitrary price (reversal close at the
sub-candle open, line 750, and the terminal mark-to-market, line 800). -/
def closePnl (pos : Position) (price : ℚ) : ℚ :=
  match pos.direction with
  | .long => (price - pos.entry_price) * pos.quantity
  | .short => (pos.entry_price - price) * pos.quantity

/-- Direction and zone chosen by the entry check, backtester.py lines
757-763: the demand test first; its elif supply test runs only when the
demand test fails; a short is taken only in futures mode. -/
def entrySelect (mode : Mode) (zones : Zones) (entry_price : ℚ) :
    Option (Dir × Zone) :=
  match zones.demand with
  | some dz =>
    if entry_price ≤ dz.high ∧ entry_price ≥ dz.low then
      if mode = .futures ∨ mode = .spot then some (.long, dz) else none
    else
      match zones.supply with
      | some sz =>
        if entry_price ≤ sz.high ∧ entry_price ≥ sz.low then
          if mode = .futures then some (.short, sz) else none
        else none
      | none => none
  | none =>
    match zones.supply with
    | some sz =>
      if entry_price ≤ sz.high ∧ entry_price ≥ sz.low then
        if mode = .futures then some (.short, sz) else none
      else none
    | none => none

/-- Construction of the new position, backtester.py lines 765-793: the
zone-boundary stop with the 0.1% buffer, the 1R/2R/3R take-profits,
futures or spot sizing, and the 33%/33%/remainder partial quantities.
Returns none when risk_per_unit ≤ 0, equity ≤ 0 or total_quantity ≤ 0. -/
def entryPosition (p : Params) (equity entry_price : ℚ) (d : Dir) (z : Zone) :
    Option Position :=
  let sl := match d with
    | .long => z.low * 0.999
    | .short => z.high * 1.001
  let risk_per_unit := rabs (entry_price - sl)
  if risk_per_unit > 0 ∧ equity > 0 then
    let tp1 := match d with
      | .long => entry_price + risk_per_unit * 1.0
      | .short => entry_price - risk_per_unit * 1.0
    let tp2 := match d with
      | .long => entry_price + risk_per_unit * 2.0
      | .short => entry_price - risk_per_unit * 2.0
    let tp3 := match d with
      | .long => entry_price + risk_per_unit * 3.0
      | .short => entry_price - risk_per_unit * 3.0
    let tq_im : ℚ × ℚ := match p.mode with
      | .futures =>
        let risk_amount := equity * (p.risk_percentage / 100)
        let q := risk_amount / risk_per_unit
        (q, entry_price * q / p.leverage)
      | .spot =>
        let invest_amount := equity * (p.risk_percentage / 100)
        let invest_amount := if invest_amount > equity then equity else invest_amount
        (invest_amount / entry_price, invest_amount)
    let total_quantity := tq_im.1
    let initial_margin := tq_im.2
    if total_quantity > 0 then
      some { entry_price := entry_price, quantity := total_quantity,
             direction := d, sl := sl, tp1 := tp1, tp2 := tp2, tp3 := tp3,
             tp1_qty := total_quantity * 0.33, tp2_qty := total_quantity * 0.33,
             tp3_qty := total_quantity - total_quantity * 0.33 * 2,
             initial_margin := if initial_margin > 0 then initial_margin else 1 }
    else none
  else none

/-- The signal block run at a main-candle boundary, backtester.py lines
745-793: the reversal close first, then the entry check on whatever position
state is left. -/
def signalPhase (p : Params) (zones : Zones) (ts : Int) (c : Candle)
    (s : SimState) : SimState :=
  let s1 :=
    match s.open_position with
    | some pos =>
      if (pos.direction = Dir.long ∧ zones.supply.isSome) ∨
          (pos.direction = Dir.short ∧ zones.demand.isSome) then
        { s with equity := s.equity + closePnl pos c.o,
                 trades := s.trades ++ [mkTrade ts pos (closePnl pos c.o) .Reversal],
                 open_position := none }
      else s
    | none => s
  match s1.open_position with
  | some _ => s1
  | none =>
    match entrySelect p.mode zones c.o with
    | some (d, z) =>
      match entryPosition p s1.equity c.o d z with
      | some pos => { s1 with open_position := some pos }
      | none => s1
    | none => s1

/-- One iteration of the simulation loop over a sub-candle, backtester.py
lines 694-795: DCA, then the exit block, then — only when the timestamp is a
main-candle open — the signal block guarded by the truthy index test
current_main_idx and current_main_idx >= 50, and the equity-curve sample. -/
def stepSim (monthOf : Int → ℕ) (p : Params) (mains : List Candle)
    (s : SimState) (c : Candle) : SimState :=
  let s1 := dcaPhase monthOf p c.t s
  let s2 := exitPhase c.t c s1
  match tsToMainIdx mains c.t with
  | none => s2
  | some idx =>
    let s3 :=
      if idx ≠ 0 ∧ idx ≥ 50 then
        signalPhase p
          (find_supply_demand_zones (pySlice mains (idx - 500) (idx + 1)))
          c.t c s2
      else s2
    { s3 with equity_curve := s3.equity_curve ++ [⟨c.t, s3.equity⟩] }

/-- The state before the loop, backtester.py lines 685-689: the seed equity
point, zero DCA and last_dca_time = start_ts. -/
def initState (p : Params) (start_ts : Int) : SimState :=
  ⟨p.starting_equity, none, [], [⟨start_ts, p.starting_equity⟩], 0, start_ts⟩

/-- The state after the first k sub-candles. -/
def simStateAfter (monthOf : Int → ℕ) (p : Params) (mains subs : List Candle)
    (start_ts : Int) (k : ℕ) : SimState :=
  (subs.take k).foldl (stepSim monthOf p mains) (initState p start_ts)

/-- The state after the whole loop. -/
def simFinalState (monthOf : Int → ℕ) (p : Params) (mains subs : List Candle)
    (start_ts : Int) : SimState :=
  subs.foldl (stepSim monthOf p mains) (initState p start_ts)

/-- Terminal mark-to-market of a still-open position, backtester.py lines
798-801. -/
def markToMarket (pos : Option Position) (price : ℚ) : ℚ :=
  match pos with
  | none => 0
  | some pos => closePnl pos price

/-- final_equity, backtester.py lines 797-801: loop equity plus the
mark-to-market of any open position at the last sub-candle close. -/
def finalEquity (monthOf : Int → ℕ) (p : Params) (mains subs : List Candle)
    (start_ts : Int) : ℚ :=
  let s := simFinalState monthOf p mains subs start_ts
  s.equity + markToMarket s.open_position (subs.getLastD default).c

/-- total_profit, backtester.py line 807. -/
def grossProfit (trades : List Trade) : ℚ :=
  ((trades.filter (fun t => t.pnl > 0)).map (fun t => t.pnl)).sum

/-- total_loss, backtester.py line 808: absolute sum of non-positive pnl. -/
def grossLoss (trades : List Trade) : ℚ :=
  rabs (((trades.filter (fun t => t.pnl ≤ 0)).map (fun t => t.pnl)).sum)

/-- profit_factor as serialized at the external boundary: a number or the
distinguishable "Infinity" sentinel string (backtester.py lines 810-811). -/
inductive ProfitFactor where
  | infinity
  | val (q : ℚ)
deriving DecidableEq, Repr, Inhabited

/-- One step of the drawdown scan, backtester.py lines 814-817: raise the
peak, then measure (peak - equity)/peak with the peak ≠ 0 guard.  State is
(max_dd, peak). -/
def ddStep (st : ℚ × ℚ) (e : ℚ) : ℚ × ℚ :=
  let peak := if e > st.2 then e else st.2
  let dd := if peak ≠ 0 then (peak - e) / peak else 0
  (rmax st.1 dd, peak)

/-- The single-pass maximum drawdown, backtester.py lines 813-817, started
from max_dd = 0 and peak = starting_equity. -/
def maxDrawdownRaw (starting : ℚ) (curve : List ℚ) : ℚ :=
  (curve.foldl ddStep (0, starting)).1

/-- The metrics record of backtester.py lines 819-827. -/
structure Metrics where
  net_profit : ℚ
  total_trades : ℕ
  win_rate : ℚ
  profit_factor : ProfitFactor
  max_drawdown : ℚ
  avg_trade_pnl : ℚ
deriving DecidableEq, Repr, Inhabited

/-- The metrics computation of backtester.py lines 804-827. -/
def computeMetrics (starting final_equity dca : ℚ) (trades : List Trade)
    (curve : List EquityPoint) : Metrics :=
  let net_profit := final_equity - starting - dca
  let n := trades.length
  let win_rate :=
    if n > 0 then ((trades.filter (fun t => t.pnl > 0)).length : ℚ) / n * 100
    else 0
  let tl := grossLoss trades
  let pf := if tl > 0 then ProfitFactor.val (grossProfit trades / tl)
            else ProfitFactor.infinity
  let mdd := maxDrawdownRaw starting (curve.map (fun pt => pt.equity))
  ⟨net_profit, n, win_rate, pf, mdd * 100,
   if n > 0 then net_profit / n else 0⟩

/-- The result record returned at backtester.py lines 819-830. -/
structure BacktestResult where
  metrics : Metrics
  trades : List Trade
  equity_curve : List EquityPoint
deriving DecidableEq, Repr, Inhabited

/-- run_backtest_simulation of backtester.py from the point where the candle
arrays are materialized (lines 664, 678, 680-830): none models the raised
ValueError on insufficient data (fewer than 50 main candles or no
sub-candles). -/
def run_backtest_simulation (monthOf : Int → ℕ) (p : Params)
    (mains subs : List Candle) (start_ts : Int) : Option BacktestResult :=
  if mains.length < 50 ∨ subs = [] then none
  else
    let s := simFinalState monthOf p mains subs start_ts
    let fe := finalEquity monthOf p mains subs start_ts
    some ⟨computeMetrics p.starting_equity fe s.total_dca_added s.trades
            s.equity_curve, s.trades, s.equity_curve⟩

/-- Direction and zone chosen by the entry check of main.py's
run_backtest_simulation, lines 565-567: demand first, elif supply, with no
mode restriction (that engine is futures-only). -/
def mainVariantSelect (zones : Zones) (entry_price : ℚ) : Option (Dir × Zone) :=
  match zones.demand with
  | some dz =>
    if entry_price ≤ dz.high ∧ entry_price ≥ dz.low then some (.long, dz)
    else
      match zones.supply with
      | some sz =>
        if entry_price ≤ sz.high ∧ entry_price ≥ sz.low then some (.short, sz)
        else none
      | none => none
  | none =>
    match zones.supply with
    | some sz =>
      if entry_price ≤ sz.high ∧ entry_price ≥ sz.low then some (.short, sz)
      else none
    | none => none

/-- Position construction of main.py's run_backtest_simulation, lines
569-582: the zone-boundary stop, then the Liquidation-Guard clamp (sl at or
beyond the liquidation price is pulled to liquidation × 1.001 for longs,
× 0.999 for shorts), then risk sizing. -/
def mainVariantBuild (leverage risk_percentage equity entry_price : ℚ)
    (d : Dir) (z : Zone) : Option Position :=
  let sl0 := match d with
    | .long => z.low * 0.999
    | .short => z.high * 1.001
  let sl := match calculate_liquidation_price entry_price leverage d with
    | none => sl0
    | some liq =>
      match d with
      | .long => if sl0 ≤ liq then liq * 1.001 else sl0
      | .short => if sl0 ≥ liq then liq * 0.999 else sl0
  let risk_per_unit := rabs (entry_price - sl)
  if risk_per_unit > 0 then
    let tp1 := match d with
      | .long => entry_price + risk_per_unit
      | .short => entry_price - risk_per_unit
    let tp2 := match d with
      | .long => entry_price + risk_per_unit * 2
      | .short => entry_price - risk_per_unit * 2
    let tp3 := match d with
      | .long => entry_price + risk_per_unit * 3
      | .short => entry_price - risk_per_unit * 3
    let total_quantity := equity * (risk_percentage / 100) / risk_per_unit
    if total_quantity > 0 then
      some { entry_price := entry_price, quantity := total_quantity,
             direction := d, sl := sl, tp1 := tp1, tp2 := tp2, tp3 := tp3,
             tp1_qty := total_quantity * 0.33, tp2_qty := total_quantity * 0.33,
             tp3_qty := total_quantity - total_quantity * 0.33 * 2,
             initial_margin :=
               if leverage > 0 then entry_price * total_quantity / leverage
               else 1 }
    else none
  else none

/-- Exit reasons of backtester_spot.py's engine: 'SL', 'TP', 'Reversal'. -/
inductive SpotReason where
  | SL
  | TP
  | Reversal
deriving DecidableEq, Repr, Inhabited

/-- A trade record of backtester_spot.py's futures branch (line 670). -/
structure SpotTrade where
  exit_time : Int
  direction : Dir
  pnl : ℚ
  return_pct : ℚ
  exit_reason : SpotReason
deriving DecidableEq, Repr, Inhabited

/-- The single-take-profit position of backtester_spot.py's futures branch
(line 709). -/
structure SpotPosition where
  entry_price : ℚ
  quantity : ℚ
  direction : Dir
  tp : ℚ
  sl : ℚ
deriving DecidableEq, Repr, Inhabited

/-- Loop state of backtester_spot.py's futures branch (lines 632-645). -/
structure SpotState where
  equity : ℚ
  open_position : Option SpotPosition
  trades : List SpotTrade
  equity_curve : List EquityPoint
  total_dca_added : ℚ
  last_dca_time : Int
deriving DecidableEq, Repr, Inhabited

/-- One iteration of the futures-mode loop of backtester_spot.py, lines
646-711.  The pattern predictor predict_next_candles (a float-valued signal
collaborator, lines 375-391) is taken as the function parameter pred, applied
to the 50-candle history slice; the source guard `if exit_price:` is Python
truthiness, so a computed exit at price exactly 0 is skipped. -/
def spotVariantStep (pred : List Candle → List Candle) (monthOf : Int → ℕ)
    (trigger_percentage leverage risk_percentage : ℚ) (dca_frequency : DcaFreq)
    (dca_amount : ℚ) (mains : List Candle) (s : SpotState) (c : Candle) :
    SpotState :=
  let s :=
    if dca_frequency ≠ DcaFreq.none ∧ dca_amount > 0 then
      let perform :=
        match dca_frequency with
        | .weekly => decide (c.t - s.last_dca_time ≥ WEEK_MS)
        | .monthly => decide (monthOf c.t ≠ monthOf s.last_dca_time)
        | .none => false
      if perform then
        { s with equity := s.equity + dca_amount,
                 total_dca_added := s.total_dca_added + dca_amount,
                 last_dca_time := c.t }
      else s
    else s
  let s :=
    match s.open_position with
    | none => s
    | some pos =>
      let ex : Option (ℚ × SpotReason) :=
        match pos.direction with
        | .long =>
          if c.l ≤ pos.sl then some (pos.sl, .SL)
          else if c.h ≥ pos.tp then some (pos.tp, .TP)
          else none
        | .short =>
          if c.h ≥ pos.sl then some (pos.sl, .SL)
          else if c.l ≤ pos.tp then some (pos.tp, .TP)
          else none
      match ex with
      | some (exit_price, reason) =>
        if exit_price ≠ 0 then
          let pnl := match pos.direction with
            | .long => (exit_price - pos.entry_price) * pos.quantity
            | .short => (pos.entry_price - exit_price) * pos.quantity
          let im := pos.entry_price * pos.quantity / leverage
          let ret := if im > 0 then pnl / im * 100 else 0
          { s with equity := s.equity + pnl,
                   trades := s.trades ++ [⟨c.t, pos.direction, pnl, ret, reason⟩],
                   open_position := none }
        else s
      | none => s
  let s :=
    match tsToMainIdx mains c.t with
    | none => s
    | some idx =>
      if idx ≠ 0 ∧ idx ≥ 50 then
        let history_slice := pySlice mains (idx - 50) idx
        let predicted := pred history_slice
        if predicted.isEmpty then s
        else
          let signal_price := (history_slice.getLastD default).c
          let change := ((predicted.getLastD default).c - signal_price)
            / signal_price * 100
          match s.open_position with
          | some pos =>
            if (pos.direction = Dir.long ∧ change < -0.5) ∨
                (pos.direction = Dir.short ∧ change > 0.5) then
              let pnl := match pos.direction with
                | .long => (c.o - pos.entry_price) * pos.quantity
                | .short => (pos.entry_price - c.o) * pos.quantity
              let im := pos.entry_price * pos.quantity / leverage
              let ret := if im > 0 then pnl / im * 100 else 0
              { s with equity := s.equity + pnl,
                       trades := s.trades ++ [⟨c.t, pos.direction, pnl, ret, .Reversal⟩],
                       open_position := none }
            else s
          | none =>
            if rabs change > trigger_percentage then
              let entry_price := c.o
              let d := if change > 0 then Dir.long else Dir.short
              let tp := entry_price * (1 + change * 0.8 / 100)
              let sl := match d with
                | .long => entry_price * (1 - change * 0.4 / 100)
                | .short => entry_price * (1 + rabs change * 0.4 / 100)
              let sl := match calculate_liquidation_price entry_price leverage d with
                | none => sl
                | some liq =>
                  match d with
                  | .long => if sl ≤ liq then liq * 1.001 else sl
                  | .short => if sl ≥ liq then liq * 0.999 else sl
              if rabs (entry_price - sl) > 0 ∧ s.equity > 0 then
                let quantity := s.equity * (risk_percentage / 100) /
                  rabs (entry_price - sl)
                { s with open_position := some ⟨entry_price, quantity, d, tp, sl⟩ }
              else s
            else s
      else s
  match tsToMainIdx mains c.t with
  | none => s
  | some _ => { s with equity_curve := s.equity_curve ++ [⟨c.t, s.equity⟩] }

/-- Metrics of backtester_spot.py, lines 802-821: identical in shape to the
core engine except that profit_factor is the plain number 0 when total_loss
is not positive (line 807) instead of the "Infinity" sentinel. -/
structure SpotMetrics where
  net_profit : ℚ
  total_trades : ℕ
  win_rate : ℚ
  profit_factor : ℚ
  max_drawdown : ℚ
  avg_trade_pnl : ℚ
deriving DecidableEq, Repr, Inhabited

/-- gross loss of the spot-variant metrics (backtester_spot.py line 806). -/
def spotGrossLoss (trades : List SpotTrade) : ℚ :=
  rabs (((trades.filter (fun t => t.pnl ≤ 0)).map (fun t => t.pnl)).sum)

/-- gross profit of the spot-variant metrics (backtester_spot.py line 805). -/
def spotGrossProfit (trades : List SpotTrade) : ℚ :=
  ((trades.filter (fun t => t.pnl > 0)).map (fun t => t.pnl)).sum

/-- backtester_spot.py lines 802-821. -/
def spotVariantMetrics (starting final_equity dca : ℚ)
    (trades : List SpotTrade) (curve : List EquityPoint) : SpotMetrics :=
  let net_profit := final_equity - starting - dca
  let n := trades.length
  let win_rate :=
    if n > 0 then ((trades.filter (fun t => t.pnl > 0)).length : ℚ) / n * 100
    else 0
  let tl := spotGrossLoss trades
  let pf := if tl > 0 then spotGrossProfit trades / tl else 0
  let mdd := maxDrawdownRaw starting (curve.map (fun pt => pt.equity))
  ⟨net_profit, n, win_rate, pf, mdd * 100,
   if n > 0 then net_profit / n else 0⟩

/-- Result record of backtester_spot.py lines 813-824. -/
structure SpotResult where
  metrics : SpotMetrics
  trades : List SpotTrade
  equity_curve : List EquityPoint
deriving DecidableEq, Repr, Inhabited

/-- The futures-mode run of backtester_spot.py's run_backtest_simulation
(lines 596-712 and 801-824), from the point where the candle arrays are
materialized.  The futures branch sets final_equity = equity with no terminal
mark-to-market (line 712). -/
def spotVariantRun (pred : List Candle → List Candle) (monthOf : Int → ℕ)
    (trigger_percentage leverage starting_equity risk_percentage : ℚ)
    (dca_frequency : DcaFreq) (dca_amount : ℚ) (mains subs : List Candle)
    (start_ts : Int) : Option SpotResult :=
  if mains.length < 50 ∨ subs = [] then none
  else
    let s0 : SpotState :=
      ⟨starting_equity, none, [], [⟨start_ts, starting_equity⟩], 0, start_ts⟩
    let s := subs.foldl
      (spotVariantStep pred monthOf trigger_percentage leverage
        risk_percentage dca_frequency dca_amount mains) s0
    some ⟨spotVariantMetrics starting_equity s.equity s.total_dca_added
            s.trades s.equity_curve, s.trades, s.equity_curve⟩

/-- Spec §4.5 / §8, the prefix formulation: the running peak of a prefix of
the equity curve is its maximum (the curve's first point seeds the peak). -/
def specPrefixPeak (l : List ℚ) : ℚ :=
  l.foldl max (l.headD 0)

/-- Spec §8 "Drawdown monotonicity": the maximum, over all prefixes of the
equity curve, of (runningPeak - value) / runningPeak, where value is the last
point of the prefix.  Division by a zero peak is the Lean convention q/0 = 0,
which coincides with the source's peak ≠ 0 guard. -/
def specMaxDrawdown (curve : List ℚ) : ℚ :=
  ((List.range curve.length).map (fun i =>
    (specPrefixPeak (curve.take (i + 1)) - curve.getD i 0) /
      specPrefixPeak (curve.take (i + 1)))).foldl max 0

/-- Shorthand candle constructor (t, o, h, l, c). -/
def mkC (t : Int) (o h l c : ℚ) : Candle := ⟨t, o, h, l, c⟩

/-- A flat doji candle at price 210 with open timestamp t. -/
def doji (t : Int) : Candle := mkC t 210 210 210 210

/-- A small rally candle of body 1 (used only to dilute the average body
size seen by the zone detector). -/
def smallRally (t : Int) : Candle := mkC t 210 211 210 211

/-- A concrete main-interval candle array of 52 candles (open timestamps
1000·k).  At index 50 its prefix exhibits a demand zone {high 200, low 100}
(drop 46, base 47, rally 48, close 205) and at index 51 the full array
exhibits a supply zone {high 180, low 160} (rally 48, base 49, drop 50,
close 150). -/
def cxMains : List Candle :=
  [doji 0, doji 1000, doji 2000, doji 3000, doji 4000, doji 5000, doji 6000,
   doji 7000, doji 8000, doji 9000,
   smallRally 10000, smallRally 11000, smallRally 12000, smallRally 13000,
   smallRally 14000, smallRally 15000, smallRally 16000,
   doji 17000, doji 18000, doji 19000, doji 20000, doji 21000, doji 22000,
   doji 23000, doji 24000, doji 25000, doji 26000, doji 27000, doji 28000,
   doji 29000, doji 30000, doji 31000, doji 32000, doji 33000, doji 34000,
   doji 35000, doji 36000, doji 37000, doji 38000, doji 39000, doji 40000,
   doji 41000, doji 42000, doji 43000, doji 44000, doji 45000,
   mkC 46000 211 211 210 210,
   mkC 47000 150 200 100 150,
   mkC 48000 210 230 210 230,
   mkC 49000 170 180 160 170,
   mkC 50000 240 240 205 205,
   mkC 51000 150 150 150 150]

/-- Two sub-candles aligned with main indices 50 and 51: the first opens at
150 inside the demand zone, the second at 170 inside the supply zone. -/
def cxSubs : List Candle :=
  [mkC 50000 150 150 150 150, mkC 51000 170 170 170 170]

/-- A trivial stand-in for the calendar month function; the scenarios using
it run with dca_frequency = none, so it is never consulted. -/
def cxMonth : Int → ℕ := fun _ => 1

/-- Futures parameters with leverage 10, equity 10000, risk 1%, no DCA. -/
def cxParams : Params :=
  ⟨10, 10000, 1, DcaFreq.none, 0, Mode.futures⟩

/-- Benign main-interval data: 50 flat candles, enough to pass the data
check while triggering no signal. -/
def demoMains : List Candle :=
  (List.range 50).map (fun k => doji (1000 * (k : Int)))

/-- A single sub-candle whose timestamp matches no main-candle open. -/
def demoSubs : List Candle := [mkC 500 1 1 1 1]

/-- Unleveraged futures parameters, no DCA. -/
def demoParams : Params := ⟨1, 10000, 1, DcaFreq.none, 0, Mode.futures⟩

/-- A benign complete run: no boundary is ever hit, so no trade occurs. -/
def demoRun : Option BacktestResult :=
  run_backtest_simulation cxMonth demoParams demoMains demoSubs 0

/-- The benign run produces a result (the data checks pass). -/
lemma demoRun_isSome : demoRun.isSome = true := by decide

/-- The concrete scenario run: long entry at the index-50 boundary, reversal
plus short re-entry at the index-51 boundary. -/
def cxRun : Option BacktestResult :=
  run_backtest_simulation cxMonth cxParams cxMains cxSubs 0

/-- A sub-candle array for the spot-variant engine whose only timestamp
matches no main-candle open. -/
def cxSpotSubs : List Candle := [mkC 500 100 100 100 100]

/-- rabs is nonnegative. -/
lemma rabs_nonneg (q : ℚ) : 0 ≤ rabs q := by
  unfold rabs; split <;> linarith

/-- The gross loss is an absolute value, hence nonnegative. -/
lemma grossLoss_nonneg (trades : List Trade) : 0 ≤ grossLoss trades :=
  rabs_nonneg _

/-- A fold preserves any invariant its step preserves. -/
lemma foldl_preserve {α σ : Type} {P : σ → Prop} {f : σ → α → σ}
    (hf : ∀ s a, P s → P (f s a)) :
    ∀ (l : List α) (s : σ), P s → P (l.foldl f s)
  | [], _, hs => hs
  | a :: l, s, hs => foldl_preserve hf l (f s a) (hf s a hs)

/-- C7.  For every entry price, leverage and direction,
calculate_liquidation_price is none exactly when leverage ≤ 1, and for
leverage > 1 it returns entry × (1 ∓ (1/leverage - 0.005)), the maintenance
margin rate fixed at 0.5%. -/
theorem liquidation_guard_contract (entry lev : ℚ) (d : Dir) :
    (calculate_liquidation_price entry lev d = none ↔ lev ≤ 1) ∧
    (1 < lev →
      calculate_liquidation_price entry lev Dir.long =
        some (entry * (1 - (1 / lev - 0.005))) ∧
      calculate_liquidation_price entry lev Dir.short =
        some (entry * (1 + (1 / lev - 0.005)))) := by
  constructor
  · constructor
    · intro h
      by_contra hlt
      unfold calculate_liquidation_price at h
      rw [if_neg hlt] at h
      cases d <;> simp at h
    · intro h
      unfold calculate_liquidation_price
      rw [if_pos h]
  · intro h
    have hn : ¬ lev ≤ 1 := not_le.mpr h
    unfold calculate_liquidation_price MAINTENANCE_MARGIN_RATE
    refine ⟨?_, ?_⟩ <;> rw [if_neg hn] <;> norm_num

/-- Witness for C7 at entry 100, leverage 2. -/
theorem liquidation_guard_contract_witness :
    (calculate_liquidation_price 100 2 Dir.long = none ↔ (2 : ℚ) ≤ 1) ∧
    (calculate_liquidation_price 100 2 Dir.long =
        some (100 * (1 - (1 / 2 - 0.005))) ∧
      calculate_liquidation_price 100 2 Dir.short =
        some (100 * (1 + (1 / 2 - 0.005)))) :=
  ⟨(liquidation_guard_contract 100 2 Dir.long).1,
   (liquidation_guard_contract 100 2 Dir.long).2 (by norm_num)⟩

/-- C1 (amended part).  In backtester.py's simulation the reported
profit_factor is the "Infinity" sentinel exactly when the gross loss is zero
(in particular for an empty or all-positive trade log), and the quotient
gross profit / gross loss otherwise; the branch on total_loss > 0 means no
division is ever attempted with a zero denominator. -/
theorem profit_factor_infinity_sentinel (monthOf : Int → ℕ) (p : Params)
    (mains subs : List Candle) (start_ts : Int) (r : BacktestResult)
    (h : run_backtest_simulation monthOf p mains subs start_ts = some r) :
    (grossLoss r.trades = 0 → r.metrics.profit_factor = ProfitFactor.infinity) ∧
    (grossLoss r.trades ≠ 0 →
      r.metrics.profit_factor =
        ProfitFactor.val (grossProfit r.trades / grossLoss r.trades)) := by
  unfold run_backtest_simulation at h
  split at h
  · exact absurd h (by simp)
  · injection h with h
    subst h
    dsimp only [computeMetrics]
    constructor
    · intro h0
      rw [if_neg (by rw [h0]; exact lt_irrefl 0)]
    · intro h0
      rw [if_pos (lt_of_le_of_ne (grossLoss_nonneg _) (Ne.symm h0))]

/-- Witness for C1 on the benign run: no trades, zero gross loss, sentinel
profit factor. -/
theorem profit_factor_infinity_sentinel_witness :
    (demoRun.get demoRun_isSome).metrics.profit_factor =
      ProfitFactor.infinity :=
  (profit_factor_infinity_sentinel cxMonth demoParams demoMains demoSubs 0 _
    (Option.some_get demoRun_isSome).symm).1 (by decide)

/-- Counterexample for C1 as stated: the run_backtest_simulation of
backtester_spot.py (explicitly cited by the claim, lines 805-807) reports
the plain number 0, not the "Infinity" sentinel, when the trade log is empty
and the gross loss is therefore exactly zero. -/
theorem profit_factor_zero_in_spot_variant :
    ((spotVariantRun (fun _ => []) cxMonth 1 10 10000 1 DcaFreq.none 0
        cxMains cxSpotSubs 0).map
      (fun r => (r.trades, r.metrics.profit_factor))) = some ([], 0) := by
  decide

/-- The conserved ledger quantity: equity minus injected capital minus
realized P&L. -/
def ledger (s : SimState) : ℚ :=
  s.equity - s.total_dca_added - (s.trades.map (fun t => t.pnl)).sum

/-- The cx scenario run produces a result. -/
lemma cxRun_isSome : cxRun.isSome = true := by decide

/-- P&L sum over an appended trade. -/
lemma sum_pnl_append (l : List Trade) (t : Trade) :
    ((l ++ [t]).map (fun x => x.pnl)).sum = (l.map (fun x => x.pnl)).sum + t.pnl := by
  simp

/-- DCA moves equity and total_dca_added together. -/
lemma ledger_dca (monthOf : Int → ℕ) (p : Params) (ts : Int) (s : SimState) :
    ledger (dcaPhase monthOf p ts s) = ledger s := by
  unfold dcaPhase
  split
  · split
    · unfold ledger
      dsimp only
      ring
    · rfl
  · rfl

/-- A stop-loss exit moves equity and the trade log's P&L sum together. -/
lemma ledger_sl (ts : Int) (c : Candle) (s : SimState) :
    ledger (slPhase ts c s) = ledger s := by
  unfold slPhase
  cases hsp : s.open_position with
  | none => rfl
  | some pos =>
    dsimp only
    by_cases hh : slHit pos c = true
    · rw [if_pos hh]
      unfold ledger
      dsimp only
      rw [sum_pnl_append]
      dsimp only [mkTrade]
      ring
    · rw [if_neg hh]

/-- A take-profit partial exit moves equity and the P&L sum together. -/
lemma ledger_tpLevel (ts : Int) (c : Candle) (i : ℕ) (s : SimState) :
    ledger (tpLevelStep ts c i s) = ledger s := by
  unfold tpLevelStep
  cases hsp : s.open_position with
  | none => rfl
  | some pos =>
    dsimp only
    by_cases hh : tpFlag pos i = false ∧ tpHitCond pos c i = true
    · rw [if_pos hh]
      unfold ledger
      dsimp only
      rw [sum_pnl_append]
      dsimp only [mkTrade]
      ring
    · rw [if_neg hh]

/-- Destroying the position does not change the ledger. -/
lemma ledger_tpDestroy (s : SimState) : ledger (tpDestroy s) = ledger s := by
  unfold tpDestroy
  cases hsp : s.open_position with
  | none => rfl
  | some q =>
    dsimp only
    by_cases h5 : q.tp3_hit = true
    · rw [if_pos h5]
      rfl
    · rw [if_neg h5]

/-- The whole take-profit block preserves the ledger. -/
lemma ledger_tpPhase (ts : Int) (c : Candle) (s : SimState) :
    ledger (tpPhase ts c s) = ledger s := by
  unfold tpPhase
  cases hsp : s.open_position with
  | none => rfl
  | some pos =>
    dsimp only
    rw [ledger_tpDestroy, ledger_tpLevel, ledger_tpLevel, ledger_tpLevel]

/-- The exit block preserves the ledger. -/
lemma ledger_exit (ts : Int) (c : Candle) (s : SimState) :
    ledger (exitPhase ts c s) = ledger s := by
  unfold exitPhase
  rw [ledger_tpPhase, ledger_sl]

/-- The signal block preserves the ledger: a reversal moves equity and the
P&L sum together, and an entry touches only the position slot. -/
lemma ledger_signal (p : Params) (zones : Zones) (ts : Int) (c : Candle)
    (s : SimState) : ledger (signalPhase p zones ts c s) = ledger s := by
  unfold signalPhase
  dsimp only
  have key : ∀ s1 : SimState, ledger s1 = ledger s →
      ledger
        (match s1.open_position with
        | some _ => s1
        | none =>
          match entrySelect p.mode zones c.o with
          | some (d, z) =>
            match entryPosition p s1.equity c.o d z with
            | some pos => { s1 with open_position := some pos }
            | none => s1
          | none => s1) = ledger s := by
    intro s1 h1
    cases s1.open_position with
    | some q => exact h1
    | none =>
      dsimp only
      cases entrySelect p.mode zones c.o with
      | none => exact h1
      | some dz =>
        obtain ⟨d, z⟩ := dz
        dsimp only
        cases entryPosition p s1.equity c.o d z with
        | none => exact h1
        | some pos => exact h1
  apply key
  cases hsp : s.open_position with
  | none => rfl
  | some pos =>
    dsimp only
    by_cases hc : (pos.direction = Dir.long ∧ zones.supply.isSome = true) ∨
        (pos.direction = Dir.short ∧ zones.demand.isSome = true)
    · rw [if_pos hc]
      unfold ledger
      dsimp only
      rw [sum_pnl_append]
      dsimp only [mkTrade]
      ring
    · rw [if_neg hc]

/-- One loop iteration preserves the ledger. -/
lemma ledger_step (monthOf : Int → ℕ) (p : Params) (mains : List Candle)
    (s : SimState) (c : Candle) :
    ledger (stepSim monthOf p mains s c) = ledger s := by
  unfold stepSim
  dsimp only
  cases tsToMainIdx mains c.t with
  | none => rw [ledger_exit, ledger_dca]
  | some idx =>
    dsimp only
    have hbase : ledger (exitPhase c.t c (dcaPhase monthOf p c.t s)) = ledger s := by
      rw [ledger_exit, ledger_dca]
    by_cases hg : idx ≠ 0 ∧ idx ≥ 50
    · rw [if_pos hg]
      have h1 : ledger (signalPhase p
          (find_supply_demand_zones (pySlice mains (idx - 500) (idx + 1)))
          c.t c (exitPhase c.t c (dcaPhase monthOf p c.t s))) = ledger s := by
        rw [ledger_signal]
        exact hbase
      exact h1
    · rw [if_neg hg]
      exact hbase

/-- The ledger of the final state is the starting equity. -/
lemma ledger_final (monthOf : Int → ℕ) (p : Params) (mains subs : List Candle)
    (start_ts : Int) :
    ledger (simFinalState monthOf p mains subs start_ts) = p.starting_equity := by
  unfold simFinalState
  exact @foldl_preserve Candle SimState
    (fun st => ledger st = p.starting_equity) (stepSim monthOf p mains)
    (fun st a hs => by
      show ledger (stepSim monthOf p mains st a) = p.starting_equity
      rw [ledger_step]
      exact hs)
    subs (initState p start_ts)
    (by show ledger (initState p start_ts) = p.starting_equity
        simp [ledger, initState])

/-- C2.  Equity conservation: the final equity equals starting equity plus
total DCA plus the realized P&L of all recorded trades plus the terminal
mark-to-market of any still-open position; consequently the reported
net_profit equals realized P&L plus mark-to-market. -/
theorem equity_conservation (monthOf : Int → ℕ) (p : Params)
    (mains subs : List Candle) (start_ts : Int) :
    finalEquity monthOf p mains subs start_ts =
      p.starting_equity +
        (simFinalState monthOf p mains subs start_ts).total_dca_added +
        ((simFinalState monthOf p mains subs start_ts).trades.map
          (fun t => t.pnl)).sum +
        markToMarket (simFinalState monthOf p mains subs start_ts).open_position
          (subs.getLastD default).c ∧
    (∀ r, run_backtest_simulation monthOf p mains subs start_ts = some r →
      r.metrics.net_profit =
        ((r.trades.map (fun t => t.pnl)).sum +
          markToMarket
            (simFinalState monthOf p mains subs start_ts).open_position
            (subs.getLastD default).c)) := by
  have hl := ledger_final monthOf p mains subs start_ts
  unfold ledger at hl
  constructor
  · unfold finalEquity
    dsimp only
    linarith [hl]
  · intro r hr
    unfold run_backtest_simulation at hr
    split at hr
    · exact absurd hr (by simp)
    · injection hr with hr
      subst hr
      dsimp only [computeMetrics]
      unfold finalEquity
      dsimp only
      linarith [hl]

/-- Witness for C2 on the concrete scenario run (one reversal trade and a
still-open short position). -/
theorem equity_conservation_witness :
    finalEquity cxMonth cxParams cxMains cxSubs 0 =
      cxParams.starting_equity +
        (simFinalState cxMonth cxParams cxMains cxSubs 0).total_dca_added +
        ((simFinalState cxMonth cxParams cxMains cxSubs 0).trades.map
          (fun t => t.pnl)).sum +
        markToMarket (simFinalState cxMonth cxParams cxMains cxSubs 0).open_position
          (cxSubs.getLastD default).c ∧
    (cxRun.get cxRun_isSome).metrics.net_profit =
        (((cxRun.get cxRun_isSome).trades.map (fun t => t.pnl)).sum +
          markToMarket
            (simFinalState cxMonth cxParams cxMains cxSubs 0).open_position
            (cxSubs.getLastD default).c) :=
  ⟨(equity_conservation cxMonth cxParams cxMains cxSubs 0).1,
   (equity_conservation cxMonth cxParams cxMains cxSubs 0).2 _
     (Option.some_get cxRun_isSome).symm⟩

/-- Direction invariant: every recorded trade and any open position is
long. -/
def dirOk (s : SimState) : Prop :=
  (∀ t ∈ s.trades, t.direction = Dir.long) ∧
  (∀ pos, s.open_position = some pos → pos.direction = Dir.long)

/-- setTpFlag only touches the _hit flags. -/
lemma setTpFlag_direction (q : Position) (i : ℕ) :
    (setTpFlag q i).direction = q.direction := by
  rcases i with _ | _ | n <;> rfl

/-- In spot mode the entry check only ever selects a long. -/
lemma entrySelect_spot_long (zones : Zones) (price : ℚ) (d : Dir) (z : Zone)
    (h : entrySelect Mode.spot zones price = some (d, z)) : d = Dir.long := by
  unfold entrySelect at h
  repeat' split at h
  all_goals
    first
      | (injection h with h; exact (congrArg Prod.fst h).symm)
      | simp_all

/-- The entry construction stores the selected direction. -/
lemma entryPosition_direction (p : Params) (eq price : ℚ) (d : Dir) (z : Zone)
    (pos : Position) (h : entryPosition p eq price d z = some pos) :
    pos.direction = d := by
  unfold entryPosition at h
  dsimp only at h
  split_ifs at h <;>
    first
      | (injection h with h; subst h; rfl)
      | exact absurd h (by simp)

/-- DCA preserves the direction invariant. -/
lemma dirOk_dca (monthOf : Int → ℕ) (p : Params) (ts : Int) (s : SimState)
    (h : dirOk s) : dirOk (dcaPhase monthOf p ts s) := by
  unfold dcaPhase
  split
  · split
    · exact h
    · exact h
  · exact h

/-- The stop-loss check preserves the direction invariant. -/
lemma dirOk_sl (ts : Int) (c : Candle) (s : SimState) (h : dirOk s) :
    dirOk (slPhase ts c s) := by
  unfold slPhase
  cases hsp : s.open_position with
  | none => exact h
  | some pos =>
    dsimp only
    by_cases hh : slHit pos c = true
    · rw [if_pos hh]
      refine ⟨?_, ?_⟩
      · intro t ht
        rcases List.mem_append.mp ht with h1 | h1
        · exact h.1 t h1
        · rcases List.mem_singleton.mp h1 with rfl
          exact h.2 pos hsp
      · intro q hq
        exact absurd hq (by simp)
    · rw [if_neg hh]
      exact h

/-- A take-profit level preserves the direction invariant. -/
lemma dirOk_tpLevel (ts : Int) (c : Candle) (i : ℕ) (s : SimState)
    (h : dirOk s) : dirOk (tpLevelStep ts c i s) := by
  unfold tpLevelStep
  cases hsp : s.open_position with
  | none => exact h
  | some pos =>
    dsimp only
    by_cases hh : tpFlag pos i = false ∧ tpHitCond pos c i = true
    · rw [if_pos hh]
      refine ⟨?_, ?_⟩
      · intro t ht
        rcases List.mem_append.mp ht with h1 | h1
        · exact h.1 t h1
        · rcases List.mem_singleton.mp h1 with rfl
          exact h.2 pos hsp
      · intro q hq
        injection hq with hq
        subst hq
        rw [setTpFlag_direction]
        exact h.2 pos hsp
    · rw [if_neg hh]
      exact h

/-- Destroying the position preserves the direction invariant. -/
lemma dirOk_tpDestroy (s : SimState) (h : dirOk s) : dirOk (tpDestroy s) := by
  unfold tpDestroy
  cases hsp : s.open_position with
  | none => exact h
  | some q =>
    dsimp only
    by_cases h5 : q.tp3_hit = true
    · rw [if_pos h5]
      refine ⟨h.1, ?_⟩
      intro q' hq'
      exact absurd hq' (by simp)
    · rw [if_neg h5]
      exact h

/-- The take-profit block preserves the direction invariant. -/
lemma dirOk_tpPhase (ts : Int) (c : Candle) (s : SimState) (h : dirOk s) :
    dirOk (tpPhase ts c s) := by
  unfold tpPhase
  cases hsp : s.open_position with
  | none => exact h
  | some pos =>
    dsimp only
    exact dirOk_tpDestroy _
      (dirOk_tpLevel ts c 2 _ (dirOk_tpLevel ts c 1 _ (dirOk_tpLevel ts c 0 s h)))

/-- The exit block preserves the direction invariant. -/
lemma dirOk_exit (ts : Int) (c : Candle) (s : SimState) (h : dirOk s) :
    dirOk (exitPhase ts c s) :=
  dirOk_tpPhase ts c _ (dirOk_sl ts c s h)

/-- In spot mode the signal block preserves the direction invariant. -/
lemma dirOk_signal (p : Params) (zones : Zones) (ts : Int) (c : Candle)
    (s : SimState) (hmode : p.mode = Mode.spot) (h : dirOk s) :
    dirOk (signalPhase p zones ts c s) := by
  unfold signalPhase
  dsimp only
  have key : ∀ s1 : SimState, dirOk s1 →
      dirOk
        (match s1.open_position with
        | some _ => s1
        | none =>
          match entrySelect p.mode zones c.o with
          | some (d, z) =>
            match entryPosition p s1.equity c.o d z with
            | some pos => { s1 with open_position := some pos }
            | none => s1
          | none => s1) := by
    intro s1 h1
    cases s1.open_position with
    | some q => exact h1
    | none =>
      dsimp only
      cases hsel : entrySelect p.mode zones c.o with
      | none => exact h1
      | some dz =>
        obtain ⟨d, z⟩ := dz
        dsimp only
        cases hpos : entryPosition p s1.equity c.o d z with
        | none => exact h1
        | some pos =>
          refine ⟨h1.1, ?_⟩
          intro q hq
          injection hq with hq
          subst hq
          rw [entryPosition_direction p s1.equity c.o d z pos hpos]
          rw [hmode] at hsel
          exact entrySelect_spot_long zones c.o d z hsel
  apply key
  cases hsp : s.open_position with
  | none => exact h
  | some pos =>
    dsimp only
    by_cases hc : (pos.direction = Dir.long ∧ zones.supply.isSome = true) ∨
        (pos.direction = Dir.short ∧ zones.demand.isSome = true)
    · rw [if_pos hc]
      refine ⟨?_, ?_⟩
      · intro t ht
        rcases List.mem_append.mp ht with h1 | h1
        · exact h.1 t h1
        · rcases List.mem_singleton.mp h1 with rfl
          exact h.2 pos hsp
      · intro q hq
        exact absurd hq (by simp)
    · rw [if_neg hc]
      exact h

/-- In spot mode one loop iteration preserves the direction invariant. -/
lemma dirOk_step (monthOf : Int → ℕ) (p : Params) (mains : List Candle)
    (s : SimState) (c : Candle) (hmode : p.mode = Mode.spot) (h : dirOk s) :
    dirOk (stepSim monthOf p mains s c) := by
  unfold stepSim
  dsimp only
  have hbase : dirOk (exitPhase c.t c (dcaPhase monthOf p c.t s)) :=
    dirOk_exit c.t c _ (dirOk_dca monthOf p c.t s h)
  cases tsToMainIdx mains c.t with
  | none => exact hbase
  | some idx =>
    dsimp only
    by_cases hg : idx ≠ 0 ∧ idx ≥ 50
    · rw [if_pos hg]
      have h1 := dirOk_signal p
        (find_supply_demand_zones (pySlice mains (idx - 500) (idx + 1)))
        c.t c _ hmode hbase
      exact ⟨h1.1, h1.2⟩
    · rw [if_neg hg]
      exact ⟨hbase.1, hbase.2⟩

/-- C5.  In spot mode no trade record is ever SHORT and no short position is
ever created: after any number of loop iterations, every recorded trade and
any open position is long. -/
theorem spot_mode_never_short (monthOf : Int → ℕ) (p : Params)
    (mains subs : List Candle) (start_ts : Int)
    (hmode : p.mode = Mode.spot) (k : ℕ) :
    ((simStateAfter monthOf p mains subs start_ts k).trades.all
      (fun t => t.direction == Dir.long)) = true ∧
    ((simStateAfter monthOf p mains subs start_ts k).open_position.all
      (fun pos => pos.direction == Dir.long)) = true := by
  have hinv : dirOk (simStateAfter monthOf p mains subs start_ts k) := by
    unfold simStateAfter
    exact @foldl_preserve Candle SimState dirOk (stepSim monthOf p mains)
      (fun st a hs => dirOk_step monthOf p mains st a hmode hs)
      (subs.take k) (initState p start_ts)
      ⟨fun t ht => absurd ht (by simp [initState]), fun q hq => absurd hq (by simp [initState])⟩
  constructor
  · rw [List.all_eq_true]
    intro t ht
    rw [beq_iff_eq]
    exact hinv.1 t ht
  · cases hop : (simStateAfter monthOf p mains subs start_ts k).open_position with
    | none => rfl
    | some pos =>
      show (pos.direction == Dir.long) = true
      rw [beq_iff_eq]
      exact hinv.2 pos hop

/-- Spot-mode parameters for the concrete scenario. -/
def cxSpotParams : Params := ⟨10, 10000, 1, DcaFreq.none, 0, Mode.spot⟩

/-- Witness for C5: the concrete scenario run in spot mode after both steps
(the demand zone does produce a long entry, the supply zone produces none). -/
theorem spot_mode_never_short_witness :
    ((simStateAfter cxMonth cxSpotParams cxMains cxSubs 0 2).trades.all
      (fun t => t.direction == Dir.long)) = true ∧
    ((simStateAfter cxMonth cxSpotParams cxMains cxSubs 0 2).open_position.all
      (fun pos => pos.direction == Dir.long)) = true :=
  spot_mode_never_short cxMonth cxSpotParams cxMains cxSubs 0 rfl 2

/-- C10.  Implicit warm-up: at a sub-candle aligned with a main candle of
index below 50 the step performs no zone detection, no reversal and no entry
— it is exactly DCA plus exit evaluation plus the equity-curve sample; at a
non-aligned sub-candle it is exactly DCA plus exit evaluation with no
sample. -/
theorem warmup_no_signal_below_50 (monthOf : Int → ℕ) (p : Params)
    (mains : List Candle) (s : SimState) (c : Candle) (idx : ℕ) :
    (tsToMainIdx mains c.t = some idx → idx < 50 →
      stepSim monthOf p mains s c =
        { exitPhase c.t c (dcaPhase monthOf p c.t s) with
          equity_curve :=
            (exitPhase c.t c (dcaPhase monthOf p c.t s)).equity_curve ++
              [⟨c.t, (exitPhase c.t c (dcaPhase monthOf p c.t s)).equity⟩] }) ∧
    (tsToMainIdx mains c.t = none →
      stepSim monthOf p mains s c = exitPhase c.t c (dcaPhase monthOf p c.t s)) := by
  constructor
  · intro h hlt
    unfold stepSim
    rw [h]
    dsimp only
    rw [if_neg (by intro hand; omega)]
  · intro h
    unfold stepSim
    rw [h]

/-- Witness for C10 at index 1 of the benign data and at a non-aligned
timestamp. -/
theorem warmup_no_signal_below_50_witness :
    (stepSim cxMonth demoParams demoMains (initState demoParams 0) (doji 1000) =
      { exitPhase 1000 (doji 1000) (dcaPhase cxMonth demoParams 1000 (initState demoParams 0)) with
        equity_curve :=
          (exitPhase 1000 (doji 1000) (dcaPhase cxMonth demoParams 1000 (initState demoParams 0))).equity_curve ++
            [⟨1000, (exitPhase 1000 (doji 1000) (dcaPhase cxMonth demoParams 1000 (initState demoParams 0))).equity⟩] }) ∧
    (stepSim cxMonth demoParams demoMains (initState demoParams 0) (mkC 500 1 1 1 1) =
      exitPhase 500 (mkC 500 1 1 1 1) (dcaPhase cxMonth demoParams 500 (initState demoParams 0))) :=
  ⟨(warmup_no_signal_below_50 cxMonth demoParams demoMains (initState demoParams 0)
      (doji 1000) 1).1 (by decide) (by decide),
   (warmup_no_signal_below_50 cxMonth demoParams demoMains (initState demoParams 0)
      (mkC 500 1 1 1 1) 0).2 (by decide)⟩

/-- The unfilled take-profit levels whose trigger holds on this candle, in
ascending order TP1, TP2, TP3 (indices 0,1,2). -/
def tpLevelsHit (pos : Position) (c : Candle) : List ℕ :=
  (if tpFlag pos 0 = false ∧ tpHitCond pos c 0 = true then [0] else []) ++
  (if tpFlag pos 1 = false ∧ tpHitCond pos c 1 = true then [1] else []) ++
  (if tpFlag pos 2 = false ∧ tpHitCond pos c 2 = true then [2] else [])

/-- The trades the take-profit block records this candle: one per hit level,
in ascending order. -/
def tpTradesSpec (ts : Int) (c : Candle) (pos : Position) : List Trade :=
  (tpLevelsHit pos c).map (fun i => mkTrade ts pos (tpPnl pos i) (tpReason i))

/-- Total partial quantity closed by the hit levels. -/
def tpQtyHitSum (pos : Position) (c : Candle) : ℚ :=
  ((tpLevelsHit pos c).map (tpQty pos)).sum

/-- One TP-level iteration on a state with an open position. -/
lemma tpLevelStep_some (ts : Int) (c : Candle) (i : ℕ) (s : SimState)
    (pos : Position) (h : s.open_position = some pos) :
    tpLevelStep ts c i s =
      if tpFlag pos i = false ∧ tpHitCond pos c i = true then
        { s with equity := s.equity + tpPnl pos i,
                 trades := s.trades ++ [mkTrade ts pos (tpPnl pos i) (tpReason i)],
                 open_position :=
                   some (setTpFlag { pos with quantity := pos.quantity - tpQty pos i } i) }
      else s := by
  unfold tpLevelStep
  rw [h]

/-- The stop-loss check on a state with an open position. -/
lemma slPhase_some (ts : Int) (c : Candle) (s : SimState) (pos : Position)
    (h : s.open_position = some pos) :
    slPhase ts c s =
      if slHit pos c = true then
        { s with equity := s.equity + slPnl pos,
                 trades := s.trades ++ [mkTrade ts pos (slPnl pos) ExitReason.SL],
                 open_position := none }
      else s := by
  unfold slPhase
  rw [h]

/-- Quantity updates and flag updates commute with the level accessors. -/
lemma setTpFlag_quantity (p : Position) (i : ℕ) :
    (setTpFlag p i).quantity = p.quantity := by
  rcases i with _ | _ | n <;> rfl

/-- setTpFlag 0 leaves the TP2 flag alone. -/
lemma tpFlag_set0_1 (p : Position) : tpFlag (setTpFlag p 0) 1 = tpFlag p 1 := rfl

/-- setTpFlag 0 leaves the TP3 flag alone. -/
lemma tpFlag_set0_2 (p : Position) : tpFlag (setTpFlag p 0) 2 = tpFlag p 2 := rfl

/-- setTpFlag 1 leaves the TP3 flag alone. -/
lemma tpFlag_set1_2 (p : Position) : tpFlag (setTpFlag p 1) 2 = tpFlag p 2 := rfl

/-- setTpFlag 2 sets the TP3 flag. -/
lemma setTpFlag_tp3 (p : Position) : (setTpFlag p 2).tp3_hit = true := rfl

/-- setTpFlag 0 and 1 leave the TP3 flag alone. -/
lemma setTpFlag_tp3_0 (p : Position) : (setTpFlag p 0).tp3_hit = p.tp3_hit := rfl

/-- setTpFlag 1 leaves the TP3 flag alone (projection form). -/
lemma setTpFlag_tp3_1 (p : Position) : (setTpFlag p 1).tp3_hit = p.tp3_hit := rfl

/-- A quantity update leaves the flags alone. -/
lemma tpFlag_updq (p : Position) (q : ℚ) (j : ℕ) :
    tpFlag { p with quantity := q } j = tpFlag p j := by
  rcases j with _ | _ | n <;> rfl

/-- Flag updates leave the trigger conditions alone. -/
lemma tpHitCond_set (p : Position) (c : Candle) (i j : ℕ) :
    tpHitCond (setTpFlag p i) c j = tpHitCond p c j := by
  rcases i with _ | _ | n <;> rcases j with _ | _ | m <;> rfl

/-- A quantity update leaves the trigger conditions alone. -/
lemma tpHitCond_updq (p : Position) (q : ℚ) (c : Candle) (j : ℕ) :
    tpHitCond { p with quantity := q } c j = tpHitCond p c j := by
  rcases j with _ | _ | m <;> rfl

/-- Flag updates leave the level P&L alone. -/
lemma tpPnl_set (p : Position) (i j : ℕ) :
    tpPnl (setTpFlag p i) j = tpPnl p j := by
  rcases i with _ | _ | n <;> rcases j with _ | _ | m <;> rfl

/-- A quantity update leaves the level P&L alone. -/
lemma tpPnl_updq (p : Position) (q : ℚ) (j : ℕ) :
    tpPnl { p with quantity := q } j = tpPnl p j := by
  rcases j with _ | _ | m <;> rfl

/-- Flag updates leave the level quantities alone. -/
lemma tpQty_set (p : Position) (i j : ℕ) :
    tpQty (setTpFlag p i) j = tpQty p j := by
  rcases i with _ | _ | n <;> rcases j with _ | _ | m <;> rfl

/-- A quantity update leaves the level quantities alone. -/
lemma tpQty_updq (p : Position) (q : ℚ) (j : ℕ) :
    tpQty { p with quantity := q } j = tpQty p j := by
  rcases j with _ | _ | m <;> rfl

/-- Flag updates leave the trade record alone (it reads only direction and
initial margin). -/
lemma mkTrade_set (ts : Int) (p : Position) (x : ℚ) (r : ExitReason) (i : ℕ) :
    mkTrade ts (setTpFlag p i) x r = mkTrade ts p x r := by
  rcases i with _ | _ | n <;> rfl

/-- A quantity update leaves the trade record alone. -/
lemma mkTrade_updq (ts : Int) (p : Position) (q x : ℚ) (r : ExitReason) :
    mkTrade ts { p with quantity := q } x r = mkTrade ts p x r := rfl

/-- tpDestroy does not touch the trade log. -/
lemma tpDestroy_trades (s : SimState) : (tpDestroy s).trades = s.trades := by
  unfold tpDestroy
  cases hsp : s.open_position with
  | none => rfl
  | some q =>
    dsimp only
    split <;> rfl

/-- tpDestroy clears the position exactly when its TP3 flag is set. -/
lemma tpDestroy_open (s : SimState) (pos : Position)
    (h : s.open_position = some pos) :
    (tpDestroy s).open_position =
      if pos.tp3_hit = true then none else some pos := by
  unfold tpDestroy
  rw [h]
  dsimp only
  by_cases h3 : pos.tp3_hit = true
  · rw [if_pos h3, if_pos h3]
  · rw [if_neg h3, if_neg h3]
    exact h

/-- C6.  Exit evaluation order on a sub-candle with an open position: the
stop-loss is checked first and a hit closes the full remaining quantity in a
single SL trade, destroying the position with no take-profit evaluated;
otherwise the unfilled take-profit levels are evaluated in ascending order
TP1, TP2, TP3, each hit appending exactly one trade and decrementing the
position by that level's partial quantity, and a TP3 hit destroys the
position regardless of remaining quantity. -/
theorem exit_checks_sl_first_then_tps (ts : Int) (c : Candle) (s : SimState)
    (pos : Position) (h : s.open_position = some pos) :
    (slHit pos c = true →
      exitPhase ts c s =
        { s with equity := s.equity + slPnl pos,
                 trades := s.trades ++ [mkTrade ts pos (slPnl pos) ExitReason.SL],
                 open_position := none }) ∧
    (slHit pos c = false →
      ((exitPhase ts c s).trades = s.trades ++ tpTradesSpec ts c pos ∧
       (∀ pos', (exitPhase ts c s).open_position = some pos' →
         pos'.quantity = pos.quantity - tpQtyHitSum pos c) ∧
       ((tpFlag pos 2 = false ∧ tpHitCond pos c 2 = true) →
         (exitPhase ts c s).open_position = none))) := by
  constructor
  · intro hh
    unfold exitPhase
    rw [slPhase_some ts c s pos h, if_pos hh]
    rfl
  · intro hh
    have hsl : slPhase ts c s = s := by
      rw [slPhase_some ts c s pos h, if_neg (by simp [hh])]
    unfold exitPhase
    rw [hsl]
    unfold tpPhase
    rw [h]
    dsimp only
    by_cases he0 : tpFlag pos 0 = false ∧ tpHitCond pos c 0 = true <;>
      by_cases he1 : tpFlag pos 1 = false ∧ tpHitCond pos c 1 = true <;>
        by_cases he2 : tpFlag pos 2 = false ∧ tpHitCond pos c 2 = true
    all_goals rw [tpLevelStep_some ts c 0 s pos h]
    all_goals first | rw [if_pos he0] | rw [if_neg he0]
    all_goals first
      | rw [tpLevelStep_some ts c 1 s pos h]
      | rw [tpLevelStep_some ts c 1 _ _ rfl]
    all_goals try simp only [setTpFlag_quantity, tpFlag_set0_1, tpFlag_set0_2,
      tpFlag_set1_2, tpFlag_updq, tpHitCond_set, tpHitCond_updq, tpPnl_set,
      tpPnl_updq, tpQty_set, tpQty_updq, mkTrade_set, mkTrade_updq]
    all_goals first | rw [if_pos he1] | rw [if_neg he1]
    all_goals first
      | rw [tpLevelStep_some ts c 2 s pos h]
      | rw [tpLevelStep_some ts c 2 _ _ rfl]
    all_goals try simp only [setTpFlag_quantity, tpFlag_set0_1, tpFlag_set0_2,
      tpFlag_set1_2, tpFlag_updq, tpHitCond_set, tpHitCond_updq, tpPnl_set,
      tpPnl_updq, tpQty_set, tpQty_updq, mkTrade_set, mkTrade_updq]
    all_goals first | rw [if_pos he2] | rw [if_neg he2]
    all_goals refine ⟨?_, ?_, ?_⟩ <;>
      [(rw [tpDestroy_trades]
        simp [tpTradesSpec, tpLevelsHit, he0, he1, he2, List.append_assoc]);
       (intro pos' hp
        first
          | rw [tpDestroy_open _ _ rfl] at hp
          | rw [tpDestroy_open _ _ h] at hp
        split at hp <;>
          first
            | exact Option.noConfusion hp
            | (injection hp with hp
               subst hp
               simp [tpQtyHitSum, tpLevelsHit, he0, he1, he2,
                 setTpFlag_quantity, tpQty_set, tpQty_updq]
               try ring));
       (intro hcond
        first
          | exact absurd hcond he2
          | ((first
                | rw [tpDestroy_open _ _ rfl]
                | rw [tpDestroy_open _ _ h])
             simp [setTpFlag_tp3]))]

/-- A concrete open long position: entry 100, stop 95, take-profits at
101/102/103. -/
def posW : Position :=
  { entry_price := 100, quantity := 1, direction := Dir.long, sl := 95,
    tp1 := 101, tp2 := 102, tp3 := 103, tp1_qty := 0.33, tp2_qty := 0.33,
    tp3_qty := 0.34, initial_margin := 10 }

/-- A state holding that position. -/
def sW : SimState := ⟨1000, some posW, [], [], 0, 0⟩

/-- A sub-candle whose low touches the stop. -/
def cSLW : Candle := mkC 0 94 94 94 94

/-- A sub-candle whose high reaches TP1 and TP2 but not TP3 and whose low
stays above the stop. -/
def cTPW : Candle := mkC 0 100 102 99 100

/-- Witness for C6: the SL-hit branch and the TP branch at concrete data. -/
theorem exit_checks_sl_first_then_tps_witness :
    (exitPhase 0 cSLW sW =
      { sW with equity := sW.equity + slPnl posW,
                trades := sW.trades ++ [mkTrade 0 posW (slPnl posW) ExitReason.SL],
                open_position := none }) ∧
    ((exitPhase 0 cTPW sW).trades = sW.trades ++ tpTradesSpec 0 cTPW posW) :=
  ⟨(exit_checks_sl_first_then_tps 0 cSLW sW posW rfl).1 (by decide),
   ((exit_checks_sl_first_then_tps 0 cTPW sW posW rfl).2 (by decide)).1⟩

/-- C9.  Quantity conservation across partials: every position created by
the entry block has TP quantities 33%, 33% and the remainder of the initial
quantity, summing exactly to the initial quantity; and a position that hits
TP1 then TP2 (and not TP3, no SL) on a candle survives with
tp1_qty + tp2_qty + remaining quantity equal to the initial quantity. -/
theorem tp_quantity_conservation :
    (∀ (p : Params) (eq price : ℚ) (d : Dir) (z : Zone) (pos : Position),
      entryPosition p eq price d z = some pos →
        pos.tp1_qty = pos.quantity * 0.33 ∧
        pos.tp2_qty = pos.quantity * 0.33 ∧
        pos.tp3_qty = pos.quantity - pos.quantity * 0.33 * 2 ∧
        pos.tp1_qty + pos.tp2_qty + pos.tp3_qty = pos.quantity) ∧
    (∀ (ts : Int) (c : Candle) (s : SimState) (pos pos' : Position),
      s.open_position = some pos →
      slHit pos c = false →
      (tpFlag pos 0 = false ∧ tpHitCond pos c 0 = true) →
      (tpFlag pos 1 = false ∧ tpHitCond pos c 1 = true) →
      ¬(tpFlag pos 2 = false ∧ tpHitCond pos c 2 = true) →
      (exitPhase ts c s).open_position = some pos' →
      pos.tp1_qty + pos.tp2_qty + pos'.quantity = pos.quantity) := by
  constructor
  · intro p eq price d z pos hpos
    unfold entryPosition at hpos
    dsimp only at hpos
    split_ifs at hpos <;>
      first
        | exact Option.noConfusion hpos
        | (injection hpos with hpos
           subst hpos
           refine ⟨rfl, rfl, rfl, by dsimp only; ring⟩)
  · intro ts c s pos pos' h hsl he0 he1 he2 hopen
    have hslp : slPhase ts c s = s := by
      rw [slPhase_some ts c s pos h, if_neg (by simp [hsl])]
    unfold exitPhase at hopen
    rw [hslp] at hopen
    unfold tpPhase at hopen
    rw [h] at hopen
    dsimp only at hopen
    rw [tpLevelStep_some ts c 0 s pos h, if_pos he0] at hopen
    rw [tpLevelStep_some ts c 1 _ _ rfl] at hopen
    simp only [setTpFlag_quantity, tpFlag_set0_1, tpFlag_set0_2, tpFlag_set1_2,
      tpFlag_updq, tpHitCond_set, tpHitCond_updq, tpPnl_set, tpPnl_updq,
      tpQty_set, tpQty_updq, mkTrade_set, mkTrade_updq] at hopen
    rw [if_pos he1] at hopen
    rw [tpLevelStep_some ts c 2 _ _ rfl] at hopen
    simp only [setTpFlag_quantity, tpFlag_set0_1, tpFlag_set0_2, tpFlag_set1_2,
      tpFlag_updq, tpHitCond_set, tpHitCond_updq, tpPnl_set, tpPnl_updq,
      tpQty_set, tpQty_updq, mkTrade_set, mkTrade_updq] at hopen
    rw [if_neg he2] at hopen
    rw [tpDestroy_open _ _ rfl] at hopen
    split at hopen
    · exact Option.noConfusion hopen
    · injection hopen with hopen
      subst hopen
      simp [setTpFlag_quantity, tpQty_set, tpQty_updq, tpQty]
      try ring

/-- The concrete entry of the scenario run produces a position. -/
def cxEntry : Option Position :=
  entryPosition cxParams 10000 150 Dir.long ⟨200, 100⟩

/-- The concrete entry succeeds. -/
lemma cxEntry_isSome : cxEntry.isSome = true := by decide

/-- The TP1-TP2 exit of the witness candle leaves a position open. -/
def wOpenAfter : Option Position := (exitPhase 0 cTPW sW).open_position

/-- That position exists. -/
lemma wOpenAfter_isSome : wOpenAfter.isSome = true := by decide

/-- Witness for C9 at the concrete entry and the concrete TP1+TP2 candle. -/
theorem tp_quantity_conservation_witness :
    ((cxEntry.get cxEntry_isSome).tp1_qty =
        (cxEntry.get cxEntry_isSome).quantity * 0.33 ∧
      (cxEntry.get cxEntry_isSome).tp2_qty =
        (cxEntry.get cxEntry_isSome).quantity * 0.33 ∧
      (cxEntry.get cxEntry_isSome).tp3_qty =
        (cxEntry.get cxEntry_isSome).quantity -
          (cxEntry.get cxEntry_isSome).quantity * 0.33 * 2 ∧
      (cxEntry.get cxEntry_isSome).tp1_qty + (cxEntry.get cxEntry_isSome).tp2_qty +
        (cxEntry.get cxEntry_isSome).tp3_qty = (cxEntry.get cxEntry_isSome).quantity) ∧
    posW.tp1_qty + posW.tp2_qty + (wOpenAfter.get wOpenAfter_isSome).quantity =
      posW.quantity :=
  ⟨tp_quantity_conservation.1 cxParams 10000 150 Dir.long ⟨200, 100⟩ _
     (Option.some_get cxEntry_isSome).symm,
   tp_quantity_conservation.2 0 cTPW sW posW _ rfl (by decide) (by decide)
     (by decide) (by decide) (Option.some_get wOpenAfter_isSome).symm⟩

/-- The sequence of drawdown terms produced by the single-pass scan. -/
def ddList : ℚ → List ℚ → List ℚ
  | _, [] => []
  | peak, e :: rest =>
    let p := if e > peak then e else peak
    (if p ≠ 0 then (p - e) / p else 0) :: ddList p rest

/-- rmax is Mathlib's max. -/
lemma rmax_eq_max (a b : ℚ) : rmax a b = max a b := by
  unfold rmax
  rcases lt_or_le a b with h | h
  · rw [if_pos h, max_eq_right h.le]
  · rw [if_neg (not_lt.mpr h), max_eq_left h]

/-- rmax of equals. -/
lemma rmax_self (a : ℚ) : rmax a a = a := by
  unfold rmax
  rw [if_neg (lt_irrefl a)]

/-- Folding rmax is folding max. -/
lemma foldl_rmax_eq (l : List ℚ) : ∀ a : ℚ, l.foldl rmax a = l.foldl max a := by
  induction l with
  | nil => intro a; rfl
  | cons e rest ih =>
    intro a
    simp only [List.foldl_cons, rmax_eq_max]
    exact ih _

/-- The scan's result is the running maximum of the drawdown terms. -/
lemma ddFold_eq (l : List ℚ) : ∀ m peak : ℚ,
    (l.foldl ddStep (m, peak)).1 = (ddList peak l).foldl rmax m := by
  induction l with
  | nil => intro m peak; rfl
  | cons e rest ih =>
    intro m peak
    simp only [List.foldl_cons, ddList]
    exact ih _ _

/-- ddList has one term per curve point. -/
lemma ddList_length (l : List ℚ) : ∀ peak : ℚ,
    (ddList peak l).length = l.length := by
  induction l with
  | nil => intro peak; rfl
  | cons e rest ih =>
    intro peak
    simp only [ddList, List.length_cons]
    rw [ih]

/-- The i-th drawdown term measures the i-th point against the running peak
of the prefix ending there. -/
lemma ddList_get (l : List ℚ) : ∀ (peak : ℚ) (i : ℕ)
    (h : i < (ddList peak l).length),
    (ddList peak l).get ⟨i, h⟩ =
      (let p := (l.take (i + 1)).foldl rmax peak;
       if p ≠ 0 then (p - l.getD i 0) / p else 0) := by
  induction l with
  | nil =>
    intro peak i h
    exact absurd h (by simp [ddList])
  | cons e rest ih =>
    intro peak i h
    cases i with
    | zero => rfl
    | succ i => exact ih _ i _

/-- The single-pass drawdown of a curve headed by its own seed equals the
spec's prefix-maximum formulation. -/
lemma maxDrawdownRaw_eq_spec (a : ℚ) (rest : List ℚ) :
    maxDrawdownRaw a (a :: rest) = specMaxDrawdown (a :: rest) := by
  unfold maxDrawdownRaw specMaxDrawdown
  rw [ddFold_eq, foldl_rmax_eq]
  congr 1
  apply List.ext_get
  · rw [ddList_length]
    simp
  · intro i h1 h2
    rw [ddList_get]
    have hterm :
        (List.map (fun i =>
          (specPrefixPeak ((a :: rest).take (i + 1)) - (a :: rest).getD i 0) /
            specPrefixPeak ((a :: rest).take (i + 1)))
          (List.range (a :: rest).length)).get ⟨i, h2⟩ =
        (specPrefixPeak ((a :: rest).take (i + 1)) - (a :: rest).getD i 0) /
          specPrefixPeak ((a :: rest).take (i + 1)) := by
      simp
    rw [hterm]
    have hpeak : ((a :: rest).take (i + 1)).foldl rmax a =
        specPrefixPeak ((a :: rest).take (i + 1)) := by
      unfold specPrefixPeak
      rw [List.take_succ_cons]
      simp only [List.foldl_cons, List.headD_cons]
      rw [rmax_self, foldl_rmax_eq]
      rw [max_self]
    dsimp only
    rw [hpeak]
    by_cases hp : specPrefixPeak ((a :: rest).take (i + 1)) = 0
    · rw [if_neg (not_not_intro hp), hp, div_zero]
    · rw [if_pos hp]

/-- On a strictly increasing curve every drawdown term vanishes. -/
lemma ddFold_zero_of_chain (l : List ℚ) : ∀ peak : ℚ,
    List.Chain' (· < ·) (peak :: l) → (l.foldl ddStep (0, peak)).1 = 0 := by
  induction l with
  | nil => intro peak _; rfl
  | cons e rest ih =>
    intro peak hch
    have h1 : peak < e := (List.chain'_cons.mp hch).1
    have h2 : List.Chain' (· < ·) (e :: rest) := (List.chain'_cons.mp hch).2
    have hstep : ddStep (0, peak) e = (0, e) := by
      unfold ddStep
      dsimp only
      rw [if_pos h1]
      have : (if e ≠ 0 then (e - e) / e else 0) = 0 := by
        split <;> simp
      rw [this, rmax_self]
    simp only [List.foldl_cons, hstep]
    exact ih e h2

/-- A strictly increasing equity curve has zero drawdown. -/
lemma maxDrawdownRaw_zero_of_increasing (a : ℚ) (rest : List ℚ)
    (h : List.Chain' (· < ·) (a :: rest)) : maxDrawdownRaw a (a :: rest) = 0 := by
  unfold maxDrawdownRaw
  have hstep : ddStep (0, a) a = (0, a) := by
    unfold ddStep
    dsimp only
    rw [if_neg (lt_irrefl a)]
    have : (if a ≠ 0 then (a - a) / a else 0) = 0 := by
      split <;> simp
    rw [this, rmax_self]
  simp only [List.foldl_cons, hstep]
  rcases rest with _ | ⟨e, rest⟩
  · rfl
  · exact ddFold_zero_of_chain _ a h

/-- The equity-curve slot of each phase is untouched before the sample. -/
lemma dcaPhase_curve (monthOf : Int → ℕ) (p : Params) (ts : Int)
    (s : SimState) : (dcaPhase monthOf p ts s).equity_curve = s.equity_curve := by
  unfold dcaPhase
  split
  · split <;> rfl
  · rfl

/-- The stop-loss check leaves the curve alone. -/
lemma slPhase_curve (ts : Int) (c : Candle) (s : SimState) :
    (slPhase ts c s).equity_curve = s.equity_curve := by
  unfold slPhase
  cases hsp : s.open_position with
  | none => rfl
  | some pos =>
    dsimp only
    split <;> rfl

/-- A take-profit level leaves the curve alone. -/
lemma tpLevelStep_curve (ts : Int) (c : Candle) (i : ℕ) (s : SimState) :
    (tpLevelStep ts c i s).equity_curve = s.equity_curve := by
  unfold tpLevelStep
  cases hsp : s.open_position with
  | none => rfl
  | some pos =>
    dsimp only
    split <;> rfl

/-- tpDestroy leaves the curve alone. -/
lemma tpDestroy_curve (s : SimState) :
    (tpDestroy s).equity_curve = s.equity_curve := by
  unfold tpDestroy
  cases hsp : s.open_position with
  | none => rfl
  | some q =>
    dsimp only
    split <;> rfl

/-- The take-profit block leaves the curve alone. -/
lemma tpPhase_curve (ts : Int) (c : Candle) (s : SimState) :
    (tpPhase ts c s).equity_curve = s.equity_curve := by
  unfold tpPhase
  cases hsp : s.open_position with
  | none => rfl
  | some pos =>
    dsimp only
    rw [tpDestroy_curve, tpLevelStep_curve, tpLevelStep_curve, tpLevelStep_curve]

/-- The exit block leaves the curve alone. -/
lemma exitPhase_curve (ts : Int) (c : Candle) (s : SimState) :
    (exitPhase ts c s).equity_curve = s.equity_curve := by
  unfold exitPhase
  rw [tpPhase_curve, slPhase_curve]

/-- The signal block leaves the curve alone. -/
lemma signalPhase_curve (p : Params) (zones : Zones) (ts : Int) (c : Candle)
    (s : SimState) : (signalPhase p zones ts c s).equity_curve = s.equity_curve := by
  unfold signalPhase
  dsimp only
  have key : ∀ s1 : SimState, s1.equity_curve = s.equity_curve →
      (match s1.open_position with
        | some _ => s1
        | none =>
          match entrySelect p.mode zones c.o with
          | some (d, z) =>
            match entryPosition p s1.equity c.o d z with
            | some pos => { s1 with open_position := some pos }
            | none => s1
          | none => s1).equity_curve = s.equity_curve := by
    intro s1 h1
    cases s1.open_position with
    | some q => exact h1
    | none =>
      dsimp only
      cases entrySelect p.mode zones c.o with
      | none => exact h1
      | some dz =>
        obtain ⟨d, z⟩ := dz
        dsimp only
        cases entryPosition p s1.equity c.o d z with
        | none => exact h1
        | some pos => exact h1
  apply key
  cases hsp : s.open_position with
  | none => rfl
  | some pos =>
    dsimp only
    split <;> rfl

/-- One loop iteration appends to the curve (possibly nothing). -/
lemma stepSim_curve (monthOf : Int → ℕ) (p : Params) (mains : List Candle)
    (s : SimState) (c : Candle) :
    ∃ tail, (stepSim monthOf p mains s c).equity_curve = s.equity_curve ++ tail := by
  unfold stepSim
  dsimp only
  have hbase : (exitPhase c.t c (dcaPhase monthOf p c.t s)).equity_curve =
      s.equity_curve := by
    rw [exitPhase_curve, dcaPhase_curve]
  cases tsToMainIdx mains c.t with
  | none =>
    exact ⟨[], by rw [hbase, List.append_nil]⟩
  | some idx =>
    dsimp only
    by_cases hg : idx ≠ 0 ∧ idx ≥ 50
    · rw [if_pos hg]
      exact ⟨_, by rw [signalPhase_curve, hbase]⟩
    · rw [if_neg hg]
      exact ⟨_, by rw [hbase]⟩

/-- The simulation's equity curve always starts with the seed point. -/
lemma curve_head (monthOf : Int → ℕ) (p : Params) (mains subs : List Candle)
    (start_ts : Int) :
    ∃ l, (simFinalState monthOf p mains subs start_ts).equity_curve =
      (⟨start_ts, p.starting_equity⟩ : EquityPoint) :: l := by
  unfold simFinalState
  refine @foldl_preserve Candle SimState
    (fun st => ∃ l, st.equity_curve = (⟨start_ts, p.starting_equity⟩ : EquityPoint) :: l)
    (stepSim monthOf p mains) ?_ subs (initState p start_ts) ⟨[], rfl⟩
  intro st a hs
  obtain ⟨l, hl⟩ := hs
  obtain ⟨tail, ht⟩ := stepSim_curve monthOf p mains st a
  exact ⟨l ++ tail, by rw [ht, hl, List.cons_append]⟩

/-- C8.  The reported max_drawdown equals the maximum over all prefixes of
the equity curve of (running peak - equity) / running peak, as a percentage;
and a strictly increasing equity curve yields drawdown zero. -/
theorem max_drawdown_prefix_formula (monthOf : Int → ℕ) (p : Params)
    (mains subs : List Candle) (start_ts : Int) (r : BacktestResult)
    (h : run_backtest_simulation monthOf p mains subs start_ts = some r) :
    r.metrics.max_drawdown =
      100 * specMaxDrawdown (r.equity_curve.map (fun pt => pt.equity)) ∧
    (∀ (a : ℚ) (rest : List ℚ), List.Chain' (· < ·) (a :: rest) →
      maxDrawdownRaw a (a :: rest) = 0) := by
  constructor
  · unfold run_backtest_simulation at h
    split at h
    · exact absurd h (by simp)
    · injection h with h
      subst h
      dsimp only [computeMetrics]
      obtain ⟨l, hl⟩ := curve_head monthOf p mains subs start_ts
      rw [hl]
      simp only [List.map_cons]
      rw [maxDrawdownRaw_eq_spec]
      rw [mul_comm]
  · intro a rest hch
    exact maxDrawdownRaw_zero_of_increasing a rest hch

/-- Witness for C8: the concrete scenario run and the curve 1,2. -/
theorem max_drawdown_prefix_formula_witness :
    (cxRun.get cxRun_isSome).metrics.max_drawdown =
      100 * specMaxDrawdown
        ((cxRun.get cxRun_isSome).equity_curve.map (fun pt => pt.equity)) ∧
    maxDrawdownRaw 1 [1, 2] = 0 :=
  ⟨(max_drawdown_prefix_formula cxMonth cxParams cxMains cxSubs 0 _
      (Option.some_get cxRun_isSome).symm).1,
   (max_drawdown_prefix_formula cxMonth cxParams cxMains cxSubs 0 _
      (Option.some_get cxRun_isSome).symm).2 1 [2] (by norm_num [List.chain'_cons])⟩

set_option maxRecDepth 100000 in
/-- Counterexample for C4 as stated: in the concrete scenario run the
step at the index-51 boundary records a Reversal trade closing the long
opened at the index-50 boundary, yet the position state after that same step
is a SHORT position (opened from the very supply zone that triggered the
reversal) — not none. -/
theorem reversal_step_reenters_same_step :
    ((simStateAfter cxMonth cxParams cxMains cxSubs 0 1).open_position.map
      (fun pos => pos.direction)) = some Dir.long ∧
    ((simStateAfter cxMonth cxParams cxMains cxSubs 0 2).trades.map
      (fun t => t.exit_reason)) = [ExitReason.Reversal] ∧
    ((simStateAfter cxMonth cxParams cxMains cxSubs 0 2).open_position.map
      (fun pos => pos.direction)) = some Dir.short := by
  decide

/-- C4 (amended).  At a main-interval evaluation step the reversal check is
evaluated before the entry check, but a position closed with exit_reason
Reversal does not block the entry check at the same step: the step's
resulting position is exactly the entry construction applied to the
post-reversal equity — which may well be a new (opposite) position. -/
theorem reversal_then_entry_same_step (p : Params) (zones : Zones) (ts : Int)
    (c : Candle) (s : SimState) (pos : Position) (z : Zone)
    (hpos : s.open_position = some pos) (hdir : pos.direction = Dir.long)
    (hz : zones.supply = some z) (hdem : zones.demand = none)
    (hin : c.o ≤ z.high ∧ c.o ≥ z.low) (hmode : p.mode = Mode.futures) :
    (signalPhase p zones ts c s).trades =
      s.trades ++ [mkTrade ts pos (closePnl pos c.o) ExitReason.Reversal] ∧
    (signalPhase p zones ts c s).open_position =
      entryPosition p (s.equity + closePnl pos c.o) c.o Dir.short z := by
  unfold signalPhase
  dsimp only
  rw [hpos]
  dsimp only
  rw [if_pos (Or.inl ⟨hdir, by rw [hz]; rfl⟩)]
  have hsel : entrySelect p.mode zones c.o = some (Dir.short, z) := by
    unfold entrySelect
    rw [hdem]
    dsimp only
    rw [hz]
    dsimp only
    rw [if_pos hin, hmode, if_pos rfl]
  rw [hsel]
  dsimp only
  cases hep : entryPosition p (s.equity + closePnl pos c.o) c.o Dir.short z with
  | none => exact ⟨rfl, rfl⟩
  | some pos2 => exact ⟨rfl, rfl⟩

/-- A supply-only zone pair for the C4 witness. -/
def zonesW : Zones := ⟨some ⟨180, 160⟩, none⟩

/-- A sub-candle opening inside that supply zone. -/
def cRevW : Candle := mkC 0 170 170 170 170

/-- Witness for C4's amended claim: the reversal trade is recorded and the
same step opens the short the entry construction yields. -/
theorem reversal_then_entry_same_step_witness :
    ((signalPhase cxParams zonesW 0 cRevW sW).trades =
      sW.trades ++ [mkTrade 0 posW (closePnl posW 170) ExitReason.Reversal] ∧
    (signalPhase cxParams zonesW 0 cRevW sW).open_position =
      entryPosition cxParams (sW.equity + closePnl posW 170) 170 Dir.short
        ⟨180, 160⟩) ∧
    (entryPosition cxParams (sW.equity + closePnl posW 170) 170 Dir.short
        ⟨180, 160⟩).isSome = true :=
  ⟨reversal_then_entry_same_step cxParams zonesW 0 cRevW sW posW ⟨180, 160⟩
     rfl rfl rfl rfl (by decide) rfl,
   by decide⟩

set_option maxRecDepth 100000 in
/-- Counterexample for C3 as stated: the concrete scenario entry of
backtester.py's simulation (leverage 10, entry 150) stores the raw zone stop
99.9 even though it lies at or beyond the liquidation price 135.75; the
Liquidation Guard clamp of the claim would have stored 135.75 × 1.001. -/
theorem unclamped_stop_in_backtester :
    ((simStateAfter cxMonth cxParams cxMains cxSubs 0 1).open_position.map
      (fun pos => (pos.entry_price, pos.sl, pos.direction))) =
      some (150, 999/10, Dir.long) ∧
    calculate_liquidation_price 150 10 Dir.long = some (543/4) ∧
    ((999 : ℚ)/10 ≤ 543/4) ∧ ((999 : ℚ)/10 ≠ (543/4) * 1.001) := by
  decide

/-- C3 (amended).  In main.py's run_backtest_simulation every entry stores
the zone-boundary stop clamped by the Liquidation Guard exactly as the claim
describes — clamped to liquidation × 1.001 (long) or × 0.999 (short) when
the zone stop lies at or beyond the liquidation price for leverage > 1, and
stored unchanged otherwise (idempotence); backtester.py's simulation (see
the counterexample) stores the zone stop without any clamp. -/
theorem main_variant_stop_clamped (leverage risk_percentage equity
    entry_price : ℚ) (d : Dir) (z : Zone) (pos : Position)
    (h : mainVariantBuild leverage risk_percentage equity entry_price d z =
      some pos) :
    pos.sl =
      (let raw := match d with
        | Dir.long => z.low * 0.999
        | Dir.short => z.high * 1.001;
       if 1 < leverage then
         match d with
         | Dir.long =>
           let liq := entry_price * (1 - (1 / leverage - 0.005));
           if raw ≤ liq then liq * 1.001 else raw
         | Dir.short =>
           let liq := entry_price * (1 + (1 / leverage - 0.005));
           if raw ≥ liq then liq * 0.999 else raw
       else raw) := by
  cases d with
  | long =>
    have hsl : ∀ q, mainVariantBuild leverage risk_percentage equity
        entry_price Dir.long z = some q →
        q.sl = (match calculate_liquidation_price entry_price leverage Dir.long with
          | none => z.low * 0.999
          | some liq =>
            if z.low * 0.999 ≤ liq then liq * 1.001 else z.low * 0.999) := by
      intro q hq
      unfold mainVariantBuild at hq
      dsimp only at hq
      split_ifs at hq <;>
        first
          | exact Option.noConfusion hq
          | (injection hq with hq
             subst hq
             rfl)
    rw [hsl pos h]
    dsimp only
    by_cases hl : leverage ≤ 1
    · have hnone : calculate_liquidation_price entry_price leverage Dir.long = none := by
        unfold calculate_liquidation_price
        rw [if_pos hl]
      rw [hnone, if_neg (not_lt.mpr hl)]
    · have hsome : calculate_liquidation_price entry_price leverage Dir.long =
          some (entry_price * (1 - (1 / leverage - 0.005))) := by
        unfold calculate_liquidation_price MAINTENANCE_MARGIN_RATE
        rw [if_neg hl]
      rw [hsome, if_pos (not_le.mp hl)]
  | short =>
    have hsl : ∀ q, mainVariantBuild leverage risk_percentage equity
        entry_price Dir.short z = some q →
        q.sl = (match calculate_liquidation_price entry_price leverage Dir.short with
          | none => z.high * 1.001
          | some liq =>
            if z.high * 1.001 ≥ liq then liq * 0.999 else z.high * 1.001) := by
      intro q hq
      unfold mainVariantBuild at hq
      dsimp only at hq
      split_ifs at hq <;>
        first
          | exact Option.noConfusion hq
          | (injection hq with hq
             subst hq
             rfl)
    rw [hsl pos h]
    dsimp only
    by_cases hl : leverage ≤ 1
    · have hnone : calculate_liquidation_price entry_price leverage Dir.short = none := by
        unfold calculate_liquidation_price
        rw [if_pos hl]
      rw [hnone, if_neg (not_lt.mpr hl)]
    · have hsome : calculate_liquidation_price entry_price leverage Dir.short =
          some (entry_price * (1 + (1 / leverage - 0.005))) := by
        unfold calculate_liquidation_price MAINTENANCE_MARGIN_RATE
        rw [if_neg hl]
      rw [hsome, if_pos (not_le.mp hl)]

/-- The main.py-variant entry at leverage 10 (clamping applies). -/
def mvEntry10 : Option Position :=
  mainVariantBuild 10 1 10000 150 Dir.long ⟨200, 100⟩

/-- It succeeds. -/
lemma mvEntry10_isSome : mvEntry10.isSome = true := by decide

/-- The main.py-variant entry at leverage 2 (the zone stop is already inside
the liquidation price and must be stored unchanged). -/
def mvEntry2 : Option Position :=
  mainVariantBuild 2 1 10000 150 Dir.long ⟨200, 100⟩

/-- It succeeds. -/
lemma mvEntry2_isSome : mvEntry2.isSome = true := by decide

/-- Witness for C3's amended claim: the clamping entry and the idempotent
entry, both through the theorem. -/
theorem main_variant_stop_clamped_witness :
    (mvEntry10.get mvEntry10_isSome).sl =
      (let raw := ((100 : ℚ)) * 0.999;
       if (1 : ℚ) < 10 then
         let liq := (150 : ℚ) * (1 - (1 / 10 - 0.005));
         if raw ≤ liq then liq * 1.001 else raw
       else raw) ∧
    (mvEntry2.get mvEntry2_isSome).sl =
      (let raw := ((100 : ℚ)) * 0.999;
       if (1 : ℚ) < 2 then
         let liq := (150 : ℚ) * (1 - (1 / 2 - 0.005));
         if raw ≤ liq then liq * 1.001 else raw
       else raw) :=
  ⟨main_variant_stop_clamped 10 1 10000 150 Dir.long ⟨200, 100⟩ _
     (Option.some_get mvEntry10_isSome).symm,
   main_variant_stop_clamped 2 1 10000 150 Dir.long ⟨200, 100⟩ _
     (Option.some_get mvEntry2_isSome).symm⟩

end Exora
